import Mathlib

/-!
# audittrail-go-sdk: the client of `client.go`

A shallow embedding of `src/client.go` (package `audittrail`).

`client.go` is a thin layer over three libraries: `net/url` (validation of the
base URL), `github.com/go-resty/resty/v2` (the HTTP transport with its retry
loop and response decoding) and `github.com/google/uuid` (request identifiers).
The parts of those libraries that decide what the client does are embedded too,
each in its own section and named after the library function it follows:

* `net/url`: `ParseRequestURI` and `Parse` as of Go 1.22, on the level of
  acceptance and of the split into components (percent-decoding of the accepted
  text is not carried out, the components hold the text as written);
* `resty`: `Client` settings, `Request`, the `Backoff` loop of `Request.Execute`
  with no retry condition and no hook installed (this client installs none),
  the middleware `parseRequestURL` and the middleware `parseResponseBody`;
* `encoding/json`: `Unmarshal` into `map[string]string` and into
  `LogListResponse`, on JSON values that are already parsed;
* `uuid`: a generator is a stream of identifiers, the state is how many of them
  were drawn.

Go strings are modelled by Lean strings (valid UTF-8 text).
-/

namespace audittrail

/-! ## Go error values -/

/-- Error values that the client builds or forwards. -/
inductive GoError where
  /-- The value of `errors.New(msg)`; also any error with message `msg` that wraps nothing. -/
  | new (msg : String)
  /-- The value of `fmt.Errorf(pfx + "%w", err)`. -/
  | errorf (pfx : String) (err : GoError)
  /-- The value `&url.Error{Op: op, URL: url, Err: err}`. -/
  | urlError (op : String) (url : String) (err : GoError)
  /-- The value `url.EscapeError(s)`. -/
  | escapeError (s : String)
  /-- The value `url.InvalidHostError(s)`. -/
  | invalidHostError (s : String)
  /-- The value of `fmt.Errorf("invalid port %q after host", colonPort)`. -/
  | invalidPort (colonPort : String)
  /-- The value `&json.UnmarshalTypeError{Value: value, Type: goType, Struct: strct, Field: field}`. -/
  | unmarshalTypeError (value : String) (goType : String) (strct : String) (field : String)
  deriving DecidableEq, Repr

/-- The method `Error()`. The function `quote` stands for `strconv.Quote`, which the
formats `%q` of `net/url` call. -/
def GoError.Error (quote : String → String) : GoError → String
  | .new msg => msg
  | .errorf pfx err => pfx ++ err.Error quote
  | .urlError op url err => op ++ " " ++ quote url ++ ": " ++ err.Error quote
  | .escapeError s => "invalid URL escape " ++ quote s
  | .invalidHostError s => "invalid character " ++ quote s ++ " in host name"
  | .invalidPort colonPort => "invalid port " ++ quote colonPort ++ " after host"
  | .unmarshalTypeError value goType strct field =>
    if strct ≠ "" ∨ field ≠ "" then
      "json: cannot unmarshal " ++ value ++ " into Go struct field " ++ strct ++ "." ++ field
        ++ " of type " ++ goType
    else
      "json: cannot unmarshal " ++ value ++ " into Go value of type " ++ goType

/-- The function `errors.Unwrap`. -/
def GoError.Unwrap : GoError → Option GoError
  | .errorf _ err => some err
  | .urlError _ _ err => some err
  | _ => none

/-! ## net/url: `ParseRequestURI` and `Parse` (Go 1.22) -/

namespace url

/-- The components of a parsed URL. `Host`, `Path`, `User` and `Fragment` hold the text
of the component as written in the input, before percent-decoding. -/
structure URL where
  Scheme : String := ""
  Opaque : String := ""
  User : Option String := none
  Host : String := ""
  Path : String := ""
  OmitHost : Bool := false
  ForceQuery : Bool := false
  RawQuery : String := ""
  Fragment : String := ""
  deriving DecidableEq, Repr

/-- The method `IsAbs`. -/
def URL.IsAbs (u : URL) : Bool := u.Scheme != ""

def isLower (c : Char) : Bool := 'a' ≤ c && c ≤ 'z'

def isUpper (c : Char) : Bool := 'A' ≤ c && c ≤ 'Z'

def isDigit (c : Char) : Bool := '0' ≤ c && c ≤ '9'

/-- The ASCII part of `strings.ToLower`, all that a scheme can need. -/
def toLowerASCII (c : Char) : Char :=
  if isUpper c then Char.ofNat (c.toNat + 32) else c

/-- The function `stringContainsCTLByte`: a byte below 0x20 or the byte 0x7f. -/
def stringContainsCTLByte (s : List Char) : Bool :=
  s.any (fun c => c.toNat < 0x20 || c.toNat == 0x7f)

/-- The loop of `getScheme` from index `i` on, `cs` being the text from `i`. -/
def getSchemeFrom (rawURL : List Char) : Nat → List Char → Except GoError (List Char × List Char)
  | _, [] => .ok ([], rawURL)
  | i, c :: cs =>
    if isLower c || isUpper c then getSchemeFrom rawURL (i + 1) cs
    else if isDigit c || c == '+' || c == '-' || c == '.' then
      if i == 0 then .ok ([], rawURL) else getSchemeFrom rawURL (i + 1) cs
    else if c == ':' then
      if i == 0 then .error (.new "missing protocol scheme")
      else .ok (rawURL.take i, cs)
    else .ok ([], rawURL)

/-- The function `getScheme`: the scheme and what follows its colon. -/
def getScheme (rawURL : List Char) : Except GoError (List Char × List Char) :=
  getSchemeFrom rawURL 0 rawURL

/-- The function `strings.Cut` for a separator of one byte. -/
def cut (sep : Char) : List Char → List Char × List Char × Bool
  | [] => ([], [], false)
  | c :: cs =>
    if c == sep then ([], cs, true)
    else
      let r := cut sep cs
      (c :: r.1, r.2.1, r.2.2)

/-- The function `strings.LastIndex` for a separator of one byte: the text before the
last occurrence and the text from it on (separator included), if there is one. -/
def lastSplit (sep : Char) : List Char → Option (List Char × List Char)
  | [] => none
  | c :: cs =>
    match lastSplit sep cs with
    | some (before, fromSep) => some (c :: before, fromSep)
    | none => if c == sep then some ([], c :: cs) else none

/-- The function `strings.Index` for the separator `%25`: the text before the first
occurrence and the text from it on. -/
def splitAtZone : List Char → Option (List Char × List Char)
  | [] => none
  | c :: cs =>
    if (['%', '2', '5'] : List Char).isPrefixOf (c :: cs) then some ([], c :: cs)
    else
      match splitAtZone cs with
      | some (before, fromZone) => some (c :: before, fromZone)
      | none => none

def ishex (c : Char) : Bool :=
  isDigit c || ('a' ≤ c && c ≤ 'f') || ('A' ≤ c && c ≤ 'F')

def unhex (c : Char) : Nat :=
  if isDigit c then c.toNat - 48
  else if 'a' ≤ c && c ≤ 'f' then c.toNat - 97 + 10
  else if 'A' ≤ c && c ≤ 'F' then c.toNat - 65 + 10
  else 0

/-- The modes of `unescape` that `parse` and `Parse` reach. -/
inductive encoding where
  | encodePath
  | encodeHost
  | encodeZone
  | encodeUserPassword
  | encodeFragment
  deriving DecidableEq, Repr

/-- The function `shouldEscape(c, encodeHost)` (and `encodeZone`, which agrees with it)
on a byte value. Allowed unescaped: letters, digits, the sub-delims, the
characters `: [ ] < > "` and the marks `- _ . ~`. -/
def shouldEscapeHost (c : Nat) : Bool :=
  if (97 ≤ c && c ≤ 122) || (65 ≤ c && c ≤ 90) || (48 ≤ c && c ≤ 57) then false
  else if c ∈ [33, 36, 38, 39, 40, 41, 42, 43, 44, 59, 61, 58, 91, 93, 60, 62, 34] then false
  else if c ∈ [45, 95, 46, 126] then false
  else true

/-- The first loop of `unescape`, which decides whether the text is accepted:
`none` when it is, the error otherwise. -/
def unescapeCheck (mode : encoding) : List Char → Option GoError
  | [] => none
  | c :: rest =>
    if c == '%' then
      match rest with
      | a :: b :: rest2 =>
        if !ishex a || !ishex b then some (.escapeError (String.mk [c, a, b]))
        else if mode == .encodeHost && unhex a < 8 && [c, a, b] != ['%', '2', '5'] then
          some (.escapeError (String.mk [c, a, b]))
        else if mode == .encodeZone && [c, a, b] != ['%', '2', '5']
            && unhex a * 16 + unhex b != 32 && shouldEscapeHost (unhex a * 16 + unhex b) then
          some (.escapeError (String.mk [c, a, b]))
        else unescapeCheck mode rest2
      | _ => some (.escapeError (String.mk (c :: rest)))
    else if (mode == .encodeHost || mode == .encodeZone) && c.toNat < 0x80
        && shouldEscapeHost c.toNat then
      some (.invalidHostError (String.mk [c]))
    else unescapeCheck mode rest

/-- The function `validOptionalPort`. -/
def validOptionalPort : List Char → Bool
  | [] => true
  | c :: ds => c == ':' && ds.all isDigit

/-- The function `validUserinfo`. -/
def validUserinfo (s : List Char) : Bool :=
  s.all fun r =>
    isUpper r || isLower r || isDigit r ||
      r.toNat ∈ [45, 46, 95, 58, 126, 33, 36, 38, 39, 40, 41, 42, 43, 44, 59, 61, 37, 64]

/-- The function `parseHost`: the host text when it is accepted. -/
def parseHost (host : List Char) : Except GoError (List Char) :=
  let unescapeAll : Except GoError (List Char) :=
    match unescapeCheck .encodeHost host with
    | some e => .error e
    | none => .ok host
  if (['['] : List Char).isPrefixOf host then
    match lastSplit ']' host with
    | none => .error (.new "missing ']' in host")
    | some (before, fromBracket) =>
      let colonPort := fromBracket.drop 1
      if !validOptionalPort colonPort then .error (.invalidPort (String.mk colonPort))
      else
        match splitAtZone before with
        | some (host1, zone) =>
          match unescapeCheck .encodeHost host1 with
          | some e => .error e
          | none =>
            match unescapeCheck .encodeZone zone with
            | some e => .error e
            | none =>
              match unescapeCheck .encodeHost fromBracket with
              | some e => .error e
              | none => .ok host
        | none => unescapeAll
  else
    match lastSplit ':' host with
    | some (_, colonPort) =>
      if !validOptionalPort colonPort then .error (.invalidPort (String.mk colonPort))
      else unescapeAll
    | none => unescapeAll

/-- The function `parseAuthority`: the user information and the host. -/
def parseAuthority (authority : List Char) : Except GoError (Option String × String) :=
  match lastSplit '@' authority with
  | none =>
    match parseHost authority with
    | .error e => .error e
    | .ok host => .ok (none, String.mk host)
  | some (userinfo, fromAt) =>
    match parseHost (fromAt.drop 1) with
    | .error e => .error e
    | .ok host =>
      if !validUserinfo userinfo then .error (.new "net/url: invalid userinfo")
      else if !userinfo.contains ':' then
        match unescapeCheck .encodeUserPassword userinfo with
        | some e => .error e
        | none => .ok (some (String.mk userinfo), String.mk host)
      else
        let c := cut ':' userinfo
        match unescapeCheck .encodeUserPassword c.1 with
        | some e => .error e
        | none =>
          match unescapeCheck .encodeUserPassword c.2.1 with
          | some e => .error e
          | none => .ok (some (String.mk userinfo), String.mk host)

/-- The function `parse(rawURL, viaRequest)`. -/
def parse (rawURL : List Char) (viaRequest : Bool) : Except GoError URL :=
  if stringContainsCTLByte rawURL then .error (.new "net/url: invalid control character in URL")
  else if rawURL == [] && viaRequest then .error (.new "empty url")
  else if rawURL == ['*'] then .ok { Path := "*" }
  else
    match getScheme rawURL with
    | .error e => .error e
    | .ok (scheme0, rest0) =>
      let scheme := scheme0.map toLowerASCII
      -- a single trailing question mark forces an empty query, else cut at the first one
      let forceQuery := rest0.getLast? == some '?' && rest0.count '?' == 1
      let rest := if forceQuery then rest0.dropLast else (cut '?' rest0).1
      let rawQuery := if forceQuery then [] else (cut '?' rest0).2.1
      let u : URL := { Scheme := String.mk scheme, ForceQuery := forceQuery,
                       RawQuery := String.mk rawQuery }
      if !(['/'] : List Char).isPrefixOf rest && scheme != [] then
        -- rootless paths are opaque
        .ok { u with Opaque := String.mk rest }
      else if !(['/'] : List Char).isPrefixOf rest && viaRequest then
        .error (.new "invalid URI for request")
      else if !(['/'] : List Char).isPrefixOf rest && (cut '/' rest).1.contains ':' then
        .error (.new "first path segment in URL cannot contain colon")
      else
        let setPath (u : URL) (p : List Char) : Except GoError URL :=
          match unescapeCheck .encodePath p with
          | some e => .error e
          | none => .ok { u with Path := String.mk p }
        if (scheme != [] || (!viaRequest && !(['/', '/', '/'] : List Char).isPrefixOf rest))
            && (['/', '/'] : List Char).isPrefixOf rest then
          let c := cut '/' (rest.drop 2)
          let authority := c.1
          let rest2 := if c.2.2 then '/' :: c.2.1 else []
          match parseAuthority authority with
          | .error e => .error e
          | .ok (user, host) => setPath { u with User := user, Host := host } rest2
        else if scheme != [] && (['/'] : List Char).isPrefixOf rest then
          setPath { u with OmitHost := true } rest
        else
          setPath u rest

/-- The function `url.ParseRequestURI`. -/
def ParseRequestURI (rawURL : String) : Except GoError URL :=
  match parse rawURL.toList true with
  | .error err => .error (.urlError "parse" rawURL err)
  | .ok u => .ok u

/-- The function `url.Parse`: the text before the first `#` goes through `parse`, the
text after it is the fragment. -/
def Parse (rawURL : String) : Except GoError URL :=
  let c := cut '#' rawURL.toList
  match parse c.1 false with
  | .error err => .error (.urlError "parse" (String.mk c.1) err)
  | .ok u =>
    if c.2.1 == [] then .ok u
    else
      match unescapeCheck .encodeFragment c.2.1 with
      | some err => .error (.urlError "parse" rawURL err)
      | none => .ok { u with Fragment := String.mk c.2.1 }

end url

/-! ## net/http and net/textproto: header maps -/

namespace http

/-- The type `http.Header`. Every key this client touches is written with `Set`, so a
key carries one value. -/
abbrev Header := List (String × String)

/-- The function `validHeaderFieldByte`: the token characters of RFC 7230. -/
def validHeaderFieldByte (c : Char) : Bool :=
  url.isLower c || url.isUpper c || url.isDigit c ||
    c.toNat ∈ [33, 35, 36, 37, 38, 39, 42, 43, 45, 46, 94, 95, 96, 124, 126]

/-- The second loop of `canonicalMIMEHeaderKey`: upper case at the start and after a
dash, lower case elsewhere. -/
def canonicalizeFrom : Bool → List Char → List Char
  | _, [] => []
  | upper, c :: cs =>
    let c1 :=
      if upper && url.isLower c then Char.ofNat (c.toNat - 32)
      else if !upper && url.isUpper c then Char.ofNat (c.toNat + 32)
      else c
    c1 :: canonicalizeFrom (c1 == '-') cs

/-- The function `textproto.CanonicalMIMEHeaderKey`. A key with a byte that is not a
token character is returned unchanged. -/
def CanonicalMIMEHeaderKey (s : String) : String :=
  if s.toList.all validHeaderFieldByte then String.mk (canonicalizeFrom true s.toList) else s

/-- Assignment `m[k] = v` on a Go map held as an association list. -/
def mapSet {α : Type} (m : List (String × α)) (k : String) (v : α) : List (String × α) :=
  match m with
  | [] => [(k, v)]
  | (k1, v1) :: rest => if k1 = k then (k, v) :: rest else (k1, v1) :: mapSet rest k v

/-- Lookup `m[k]` on a Go map held as an association list. -/
def mapGet {α : Type} (m : List (String × α)) (k : String) : Option α :=
  match m with
  | [] => none
  | (k1, v1) :: rest => if k1 = k then some v1 else mapGet rest k

/-- The method `Header.Set`. -/
def Header.Set (h : Header) (key value : String) : Header :=
  mapSet h (CanonicalMIMEHeaderKey key) value

/-- The method `Header.Get`, `none` standing for an absent key. -/
def Header.Get (h : Header) (key : String) : Option String :=
  mapGet h (CanonicalMIMEHeaderKey key)

end http

/-! ## JSON values and encoding/json -/

/-- A JSON number by its literal: an integer literal, or a literal with a fraction or
an exponent together with whether `strconv.ParseFloat` finds it in the range of
`float64`. -/
inductive JSONNumber where
  | int (n : Int)
  | float (lit : String) (inRange : Bool)
  deriving DecidableEq, Repr

/-- JSON values. The same trees stand for the Go values of type `interface{}` that
`encoding/json` reads and writes (`nil`, `bool`, `float64` given by its literal,
`string`, `[]interface{}`, `map[string]interface{}`). -/
inductive JSON where
  | null
  | bool (b : Bool)
  | number (n : JSONNumber)
  | string (s : String)
  | array (elems : List JSON)
  | object (members : List (String × JSON))
  deriving Repr

namespace json

/-- The text of a number literal. -/
def JSONNumber.lit : JSONNumber → String
  | .int n => toString n
  | .float lit _ => lit

/-- Whether `strconv.ParseFloat(lit, 64)` succeeds: an integer is in range when it
rounds to a finite `float64`, that is below `2^1024 - 2^970` in absolute value. -/
def JSONNumber.fitsFloat64 : JSONNumber → Bool
  | .int n => decide (n.natAbs < 2 ^ 1024 - 2 ^ 970)
  | .float _ inRange => inRange

/-- The field `Value` of an `UnmarshalTypeError` for a value of the wrong kind. -/
def kindName : JSON → String
  | .null => "null"
  | .bool _ => "bool"
  | .number _ => "number"
  | .string _ => "string"
  | .array _ => "array"
  | .object _ => "object"

/-- Where the decoder stands: the enclosing struct and the path of fields, the
`Struct` and `Field` of an `UnmarshalTypeError`. -/
structure errorContext where
  Struct : String := ""
  Field : String := ""
  deriving DecidableEq, Repr

def typeError (ctx : errorContext) (value goType : String) : GoError :=
  .unmarshalTypeError value goType ctx.Struct ctx.Field

mutual
/-- The method `valueInterface`: decoding into an empty `interface{}`. -/
def valueInterface (ctx : errorContext) : JSON → Except GoError JSON
  | .null => .ok .null
  | .bool b => .ok (.bool b)
  | .number n =>
    if JSONNumber.fitsFloat64 n then .ok (.number n)
    else .error (typeError ctx ("number " ++ JSONNumber.lit n) "float64")
  | .string s => .ok (.string s)
  | .array elems =>
    match arrayInterface ctx elems with
    | .error e => .error e
    | .ok vs => .ok (.array vs)
  | .object members =>
    match objectInterface ctx [] members with
    | .error e => .error e
    | .ok m => .ok (.object m)
/-- The method `arrayInterface`. -/
def arrayInterface (ctx : errorContext) : List JSON → Except GoError (List JSON)
  | [] => .ok []
  | j :: js =>
    match valueInterface ctx j with
    | .error e => .error e
    | .ok v =>
      match arrayInterface ctx js with
      | .error e => .error e
      | .ok vs => .ok (v :: vs)
/-- The method `objectInterface`, also the loop of `object` on a
`map[string]interface{}`: the members are stored in order into the map `m`. -/
def objectInterface (ctx : errorContext) (m : List (String × JSON)) :
    List (String × JSON) → Except GoError (List (String × JSON))
  | [] => .ok m
  | (k, j) :: ms =>
    match valueInterface ctx j with
    | .error e => .error e
    | .ok v => objectInterface ctx (http.mapSet m k v) ms
end

/-- Decoding into a `string`. -/
def decodeString (ctx : errorContext) (cur : String) : JSON → Except GoError String
  | .null => .ok cur
  | .string s => .ok s
  | j => .error (typeError ctx (kindName j) "string")

/-- Decoding into an `int` (64 bits). -/
def decodeInt (ctx : errorContext) (cur : Int) : JSON → Except GoError Int
  | .null => .ok cur
  | .number (.int n) =>
    if -(2 ^ 63) ≤ n ∧ n < 2 ^ 63 then .ok n
    else .error (typeError ctx ("number " ++ toString n) "int")
  | .number (.float lit _) => .error (typeError ctx ("number " ++ lit) "int")
  | j => .error (typeError ctx (kindName j) "int")

/-- Decoding into a `*string`: `null` makes the pointer nil. -/
def decodeStringPtr (ctx : errorContext) : JSON → Except GoError (Option String)
  | .null => .ok none
  | .string s => .ok (some s)
  | j => .error (typeError ctx (kindName j) "string")

/-- Decoding into a `map[string]interface{}` (`none` is the nil map): `null` makes it
nil, an object stores its members into the map at hand or into a new one. -/
def decodeAnyMap (ctx : errorContext) (cur : Option (List (String × JSON))) :
    JSON → Except GoError (Option (List (String × JSON)))
  | .null => .ok none
  | .object members =>
    match objectInterface ctx (cur.getD []) members with
    | .error e => .error e
    | .ok m => .ok (some m)
  | j => .error (typeError ctx (kindName j) "map[string]interface {}")

/-- The loop of `object` on a `map[string]string`. -/
def objectStringMap (ctx : errorContext) (m : List (String × String)) :
    List (String × JSON) → Except GoError (List (String × String))
  | [] => .ok m
  | (k, j) :: ms =>
    match decodeString ctx "" j with
    | .error e => .error e
    | .ok v => objectStringMap ctx (http.mapSet m k v) ms

/-- The function `json.Unmarshal` into a `*map[string]string` whose map is `cur` (`none`
the nil map): `null` makes the map nil, an object stores its members into the
map at hand or into a new one. -/
def unmarshalStringMap (cur : Option (List (String × String))) :
    JSON → Except GoError (Option (List (String × String)))
  | .null => .ok none
  | .object members =>
    match objectStringMap {} (cur.getD []) members with
    | .error e => .error e
    | .ok m => .ok (some m)
  | j => .error (typeError {} (kindName j) "map[string]string")

/-- The folding of one character of a key in `foldName`. Lower-case ASCII letters go
to upper case; outside ASCII only the long s and the Kelvin sign fold to an ASCII
letter, other characters are left as they are (their fold is not ASCII either). -/
def foldChar (c : Char) : Char :=
  if url.isLower c then Char.ofNat (c.toNat - 32)
  else if c.toNat = 0x17F then 'S'
  else if c.toNat = 0x212A then 'K'
  else c

def foldName (s : String) : List Char := s.toList.map foldChar

/-- The lookup of the struct field for a key: the field of that exact name, else the
first field whose name equals the key under folding. -/
def findField (names : List String) (key : String) : Option String :=
  match names.find? (fun n => n == key) with
  | some n => some n
  | none => names.find? (fun n => foldName n == foldName key)

end json

/-! ## The data model of `client.go` -/

/-- The struct `LogEntry`. `Details` is a `map[string]interface{}`, `none` the nil map. -/
structure LogEntry where
  ID : String := ""
  Timestamp : String := ""
  Action : String := ""
  UserID : String := ""
  Details : Option (List (String × JSON)) := none
  Signature : String := ""

/-- The struct `LogListResponse`. `Next` and `Previous` are of type `*string`, `none` the
nil pointer; `Results` is a slice, the empty list standing for the nil slice too. -/
structure LogListResponse where
  Count : Int := 0
  Next : Option String := none
  Previous : Option String := none
  Results : List LogEntry := []

namespace json

/-- The JSON names of the fields of `LogEntry`, from its struct tags. -/
def logEntryFields : List String :=
  ["_id", "timestamp", "action", "user_id", "details", "signature"]

/-- The JSON names of the fields of `LogListResponse`, from its struct tags. -/
def logListResponseFields : List String := ["count", "next", "previous", "results"]

/-- Decoding the value of one member into the field `name` of a `LogEntry`; `path` is
the field path down to the entry. -/
def setLogEntryField (path : String) (cur : LogEntry) (name : String) (j : JSON) :
    Except GoError LogEntry :=
  let ctx : errorContext := { Struct := "LogEntry", Field := path ++ name }
  if name = "_id" then
    match decodeString ctx cur.ID j with
    | .error e => .error e
    | .ok v => .ok { cur with ID := v }
  else if name = "timestamp" then
    match decodeString ctx cur.Timestamp j with
    | .error e => .error e
    | .ok v => .ok { cur with Timestamp := v }
  else if name = "action" then
    match decodeString ctx cur.Action j with
    | .error e => .error e
    | .ok v => .ok { cur with Action := v }
  else if name = "user_id" then
    match decodeString ctx cur.UserID j with
    | .error e => .error e
    | .ok v => .ok { cur with UserID := v }
  else if name = "details" then
    match decodeAnyMap ctx cur.Details j with
    | .error e => .error e
    | .ok v => .ok { cur with Details := v }
  else if name = "signature" then
    match decodeString ctx cur.Signature j with
    | .error e => .error e
    | .ok v => .ok { cur with Signature := v }
  else .ok cur

/-- The loop of `object` on a `LogEntry`: members in order, a key that names no field
is skipped. -/
def objectLogEntry (path : String) (cur : LogEntry) :
    List (String × JSON) → Except GoError LogEntry
  | [] => .ok cur
  | (k, j) :: ms =>
    match findField logEntryFields k with
    | none => objectLogEntry path cur ms
    | some name =>
      match setLogEntryField path cur name j with
      | .error e => .error e
      | .ok cur1 => objectLogEntry path cur1 ms

/-- Decoding into a `LogEntry` that is an element of the field `results`. -/
def decodeLogEntry (cur : LogEntry) : JSON → Except GoError LogEntry
  | .null => .ok cur
  | .object members => objectLogEntry "results." cur members
  | j => .error (typeError { Struct := "LogListResponse", Field := "results" } (kindName j)
      "audittrail.LogEntry")

/-- The loop of `array` on a `[]LogEntry`: the element at an index the slice already
has is decoded into, a new element starts from the zero value. (Elements in spare
capacity beyond the length, which a key met a third time could expose, are not
modelled.) -/
def arrayLogEntries : List LogEntry → List JSON → Except GoError (List LogEntry)
  | _, [] => .ok []
  | cur, j :: js =>
    match decodeLogEntry (cur.head?.getD {}) j with
    | .error e => .error e
    | .ok v =>
      match arrayLogEntries cur.tail js with
      | .error e => .error e
      | .ok vs => .ok (v :: vs)

/-- Decoding into a `[]LogEntry`. -/
def decodeLogEntries (cur : List LogEntry) : JSON → Except GoError (List LogEntry)
  | .null => .ok []
  | .array elems => arrayLogEntries cur elems
  | j => .error (typeError { Struct := "LogListResponse", Field := "results" } (kindName j)
      "[]audittrail.LogEntry")

/-- Decoding the value of one member into the field `name` of a `LogListResponse`. -/
def setLogListResponseField (cur : LogListResponse) (name : String) (j : JSON) :
    Except GoError LogListResponse :=
  let ctx : errorContext := { Struct := "LogListResponse", Field := name }
  if name = "count" then
    match decodeInt ctx cur.Count j with
    | .error e => .error e
    | .ok v => .ok { cur with Count := v }
  else if name = "next" then
    match decodeStringPtr ctx j with
    | .error e => .error e
    | .ok v => .ok { cur with Next := v }
  else if name = "previous" then
    match decodeStringPtr ctx j with
    | .error e => .error e
    | .ok v => .ok { cur with Previous := v }
  else if name = "results" then
    match decodeLogEntries cur.Results j with
    | .error e => .error e
    | .ok v => .ok { cur with Results := v }
  else .ok cur

/-- The loop of `object` on a `LogListResponse`. -/
def objectLogListResponse (cur : LogListResponse) :
    List (String × JSON) → Except GoError LogListResponse
  | [] => .ok cur
  | (k, j) :: ms =>
    match findField logListResponseFields k with
    | none => objectLogListResponse cur ms
    | some name =>
      match setLogListResponseField cur name j with
      | .error e => .error e
      | .ok cur1 => objectLogListResponse cur1 ms

/-- The function `json.Unmarshal` into a `*LogListResponse` holding `cur`. -/
def unmarshalLogListResponse (cur : LogListResponse) : JSON → Except GoError LogListResponse
  | .null => .ok cur
  | .object members => objectLogListResponse cur members
  | j => .error (typeError {} (kindName j) "audittrail.LogListResponse")

end json

/-! ## time -/

namespace time

/-- A `time.Duration` counts nanoseconds. -/
abbrev Duration := Nat

def Millisecond : Duration := 1000000

def Second : Duration := 1000 * Millisecond

end time

/-! ## resty: client settings, requests and the retry loop -/

namespace resty

/-- The settings of a `resty.Client` that this program writes or that its requests read. -/
structure Client where
  BaseURL : String
  Header : http.Header
  RetryCount : Nat
  RetryWaitTime : time.Duration
  RetryMaxWaitTime : time.Duration
  deriving DecidableEq, Repr

/-- The function `resty.New`: no base URL, no header, no retry, the default waits of
100 milliseconds and 2 seconds. -/
def New : Client :=
  { BaseURL := "", Header := [], RetryCount := 0,
    RetryWaitTime := 100 * time.Millisecond, RetryMaxWaitTime := 2000 * time.Millisecond }

def Client.SetRetryCount (c : Client) (count : Nat) : Client := { c with RetryCount := count }

def Client.SetRetryWaitTime (c : Client) (waitTime : time.Duration) : Client :=
  { c with RetryWaitTime := waitTime }

def Client.SetRetryMaxWaitTime (c : Client) (maxWaitTime : time.Duration) : Client :=
  { c with RetryMaxWaitTime := maxWaitTime }

/-- The function `strings.TrimRight(s, "/")`. -/
def trimRightSlash (s : String) : String :=
  String.mk (s.toList.reverse.dropWhile (fun c => c == '/')).reverse

/-- The method `SetBaseURL`: the URL is stored without its trailing slashes. -/
def Client.SetBaseURL (c : Client) (url : String) : Client :=
  { c with BaseURL := trimRightSlash url }

def Client.SetHeader (c : Client) (header value : String) : Client :=
  { c with Header := c.Header.Set header value }

/-- A `resty.Request` as far as this program fills it. The result target given to
`SetResult` is not a field: `Execute` takes its zero value and its decoder. -/
structure Request where
  URL : String := ""
  Method : String := ""
  Header : http.Header := []
  QueryParam : List (String × String) := []
  Body : Option JSON := none

/-- The method `Client.R`: a fresh request. -/
def R : Request := {}

def Request.SetHeader (r : Request) (header value : String) : Request :=
  { r with Header := r.Header.Set header value }

def Request.SetBody (r : Request) (body : JSON) : Request := { r with Body := some body }

/-- The method `SetQueryParams`: every pair of the map is set. -/
def Request.SetQueryParams (r : Request) (params : List (String × String)) : Request :=
  { r with QueryParam := params.foldl (fun q kv => http.mapSet q kv.1 kv.2) r.QueryParam }

/-- What one attempt hands to the HTTP client, by its parts. The URL of the outgoing
request is not a field: `parseRequestURL` makes it from `BaseURL`, `Path` and
`QueryParam` (it parses base URL and path, appends the encoded query parameters
to the query and writes the URL out again), and that text is not computed here. -/
structure WireRequest where
  Method : String
  BaseURL : String
  Path : String
  Header : http.Header
  QueryParam : List (String × String)
  Body : Option JSON

/-- The middleware `parseRequestHeader`: the headers of the request, then those of the
client whose key the request does not set. (The `User-Agent` and `Accept` that the
library adds by itself are not listed.) -/
def mergeHeader (c : Client) (r : Request) : http.Header :=
  c.Header.foldl (fun h kv => if (http.mapGet h kv.1).isSome then h else h ++ [kv]) r.Header

/-- The text that the middleware `parseRequestURL` hands to `url.Parse` for a relative
request URL: the base URL of the client, a slash if the request URL does not
start with one, the request URL. (This is the text that is parsed, not the URL
that goes out, which is the parsed URL written out again with the query
parameters.) -/
def requestURLText (c : Client) (r : Request) : String :=
  match r.URL.toList with
  | [] => c.BaseURL
  | ch :: _ => if ch == '/' then c.BaseURL ++ r.URL else c.BaseURL ++ "/" ++ r.URL

/-- The request of an attempt: a function of the client and of the request object,
which `Execute` hands unchanged to every attempt. -/
def wireRequest (c : Client) (r : Request) : WireRequest :=
  { Method := r.Method, BaseURL := c.BaseURL, Path := r.URL, Header := mergeHeader c r,
    QueryParam := r.QueryParam, Body := r.Body }

/-- The class of the `Content-Type` of a response: `json` when `IsJSONType` holds of it.
(XML content types are not modelled.) -/
inductive ContentKind where
  | json
  | other
  deriving DecidableEq, Repr

/-- A response as received: status code, class of the content type, and the body as
the JSON scanner reads it (its syntax error when the body is not JSON text). -/
structure RawResponse where
  StatusCode : Nat
  Kind : ContentKind
  Body : Except GoError JSON

/-- What `httpClient.Do` gives for one attempt. -/
inductive RoundTrip where
  | failure (err : GoError)
  | response (raw : RawResponse)

/-- The remote side: the answer to a request, given how many requests were sent before it. -/
abbrev Server := Nat → WireRequest → RoundTrip

/-- What the program has done to the outside: how many identifiers it drew from the
generator and the requests it handed to the HTTP client, oldest first. -/
structure World where
  uuids : Nat := 0
  sent : List WireRequest := []

/-- A `resty.Response` of a request whose result target has type `ρ`. -/
structure Response (ρ : Type) where
  StatusCode : Nat
  Result : ρ

/-- The outcome of `Client.execute` for one attempt. -/
inductive Attempt (ρ : Type) where
  /-- A response and a nil error. -/
  | done (resp : Response ρ)
  /-- An error as it came from `httpClient.Do`. -/
  | failed (err : GoError)
  /-- An error of a middleware, which `execute` wraps with `wrapNoRetryErr`. -/
  | noRetry (err : GoError)

/-- The method `Response.IsSuccess`. -/
def IsSuccess (status : Nat) : Bool := status > 199 && status < 300

/-- The middleware `parseResponseBody` with a result target set and no error target:
a body is decoded only when the status is not 204, the content type is JSON and
the status is a success; otherwise the target keeps the value `zero`. -/
def parseResponseBody {ρ : Type} (raw : RawResponse) (zero : ρ)
    (unmarshal : ρ → JSON → Except GoError ρ) : Attempt ρ :=
  if raw.StatusCode = 204 then .done { StatusCode := raw.StatusCode, Result := zero }
  else if raw.Kind = .json ∧ IsSuccess raw.StatusCode then
    match raw.Body with
    | .error e => .noRetry e
    | .ok j =>
      match unmarshal zero j with
      | .error e => .noRetry e
      | .ok v => .done { StatusCode := raw.StatusCode, Result := v }
  else .done { StatusCode := raw.StatusCode, Result := zero }

/-- The method `Client.execute`: one attempt. The middleware `parseRequestURL` parses
the URL of the request; its error ends the attempt, marked no-retry, before
anything is sent. Otherwise the request goes to the HTTP client, an error of the
round trip is returned as it is, and a response goes through `parseResponseBody`.
(The other request middlewares do not fail on the requests of this client, whose
body is a JSON value and whose method is fixed.) -/
def Client.execute {ρ : Type} (server : Server) (c : Client) (r : Request) (zero : ρ)
    (unmarshal : ρ → JSON → Except GoError ρ) (w : World) : Attempt ρ × World :=
  match url.Parse (requestURLText c r) with
  | .error err => (.noRetry err, w)
  | .ok _ =>
    let wire := wireRequest c r
    let w1 : World := { w with sent := w.sent ++ [wire] }
    match server w.sent.length wire with
    | .failure err => (.failed err, w1)
    | .response raw => (parseResponseBody raw zero unmarshal, w1)

/-- The loop `for attempt := 0; attempt <= maxRetries; attempt++` of `Backoff`, with no
retry condition: an attempt is repeated when it ended in an error that is not
marked no-retry, until `attempt == maxRetries`. The argument `retriesLeft` is
`maxRetries - attempt`. The wait between attempts is not simulated. -/
def Backoff {ρ : Type} (operation : World → Attempt ρ × World) :
    (retriesLeft : Nat) → World → Attempt ρ × World
  | 0, w => operation w
  | n + 1, w =>
    match operation w with
    | (.failed _, w1) => Backoff operation n w1
    | out => out

/-- The method `Request.Execute`: the attempts under `Backoff`, then the error without
its no-retry mark. -/
def Request.Execute {ρ : Type} (server : Server) (c : Client) (r : Request) (method url : String)
    (zero : ρ) (unmarshal : ρ → JSON → Except GoError ρ) (w : World) :
    Except GoError (Response ρ) × World :=
  let r1 : Request := { r with Method := method, URL := url }
  match Backoff (c.execute server r1 zero unmarshal) c.RetryCount w with
  | (.done resp, w1) => (.ok resp, w1)
  | (.failed err, w1) => (.error err, w1)
  | (.noRetry err, w1) => (.error err, w1)

def Request.Post {ρ : Type} (server : Server) (c : Client) (r : Request) (url : String)
    (zero : ρ) (unmarshal : ρ → JSON → Except GoError ρ) (w : World) :
    Except GoError (Response ρ) × World :=
  r.Execute server c "POST" url zero unmarshal w

def Request.Get {ρ : Type} (server : Server) (c : Client) (r : Request) (url : String)
    (zero : ρ) (unmarshal : ρ → JSON → Except GoError ρ) (w : World) :
    Except GoError (Response ρ) × World :=
  r.Execute server c "GET" url zero unmarshal w

end resty

/-! ## The client: `client.go` -/

/-- The struct `AuditTrailClient`; `client` is a pointer, `none` when nil. -/
structure AuditTrailClient where
  client : Option resty.Client
  baseURL : String
  token : String
  deriving DecidableEq, Repr

/-- The surroundings of a call: the identifiers that `uuid.New().String()` yields, by
how many were drawn before, and the remote side. -/
structure Env where
  uuid : Nat → String
  server : resty.Server

/-- What a method returns, `(result, err)`, and the world after the call. The result
is a map or a pointer, `none` when nil. -/
structure Return (ρ : Type) where
  result : Option ρ
  err : Option GoError
  world : resty.World

/-- The function `NewAuditTrailClient`. -/
def NewAuditTrailClient (baseURL token : String) : Option AuditTrailClient × Option GoError :=
  if baseURL = "" then (none, some (.new "baseURL is required"))
  else
    match url.ParseRequestURI baseURL with
    | .error err => (none, some (.errorf "invalid baseURL: " err))
    | .ok _ =>
      let client := resty.New
      let client := (((((client.SetRetryCount 3).SetRetryWaitTime (1 * time.Second)).SetRetryMaxWaitTime
        (10 * time.Second)).SetBaseURL baseURL).SetHeader "Authorization"
        ("Bearer " ++ token)).SetHeader "Content-Type" "application/json"
      (some { client := some client, baseURL := baseURL, token := token }, none)

/-- The body that `CreateLog` builds: the key `action`, and the key `details` when
`details` is not nil. -/
def createLogBody (action : String) (details : Option (List (String × JSON))) : JSON :=
  let body : List (String × JSON) := [("action", .string action)]
  match details with
  | some d => .object (http.mapSet body "details" (.object d))
  | none => .object body

/-- The method `CreateLog`. The value is `none` when the call panics, which it does on a
nil `client` pointer once the check of `baseURL` is passed. The result target is
a pointer to an empty map, and the result is the map it points to after the
exchange. -/
def AuditTrailClient.CreateLog (env : Env) (c : AuditTrailClient) (action : String)
    (details : Option (List (String × JSON))) (w : resty.World) :
    Option (Return (List (String × String))) :=
  if c.baseURL = "" then
    some { result := none,
           err := some (.new "client not properly initialized: baseURL is missing"), world := w }
  else
    let body := createLogBody action details
    let requestID := env.uuid w.uuids
    let w1 : resty.World := { w with uuids := w.uuids + 1 }
    match c.client with
    | none => none
    | some client =>
      match ((resty.R.SetHeader "X-Request-ID" requestID).SetBody body).Post env.server client
          "/api/logs/" (some []) json.unmarshalStringMap w1 with
      | (.error err, w2) =>
        some { result := none, err := some (.errorf "failed to create log: " err), world := w2 }
      | (.ok resp, w2) => some { result := resp.Result, err := none, world := w2 }

/-- The method `ListLogs`; `params` is a Go map, a list of pairs with distinct keys. -/
def AuditTrailClient.ListLogs (env : Env) (c : AuditTrailClient) (params : List (String × String))
    (w : resty.World) : Option (Return LogListResponse) :=
  if c.baseURL = "" then
    some { result := none,
           err := some (.new "client not properly initialized: baseURL is missing"), world := w }
  else
    let requestID := env.uuid w.uuids
    let w1 : resty.World := { w with uuids := w.uuids + 1 }
    match c.client with
    | none => none
    | some client =>
      match ((resty.R.SetHeader "X-Request-ID" requestID).SetQueryParams params).Get env.server client
          "/api/logs/list/" {} json.unmarshalLogListResponse w1 with
      | (.error err, w2) =>
        some { result := none, err := some (.errorf "failed to list logs: " err), world := w2 }
      | (.ok resp, w2) => some { result := some resp.Result, err := none, world := w2 }

/-! ## Notions of the specification -/

/-- A syntactically valid absolute URL, in the words of the specification: text that
`net/url` parses and that names a scheme and a host. -/
def validAbsoluteURL (baseURL : String) : Bool :=
  match url.ParseRequestURI baseURL with
  | .ok u => u.Scheme != "" && u.Host != ""
  | .error _ => false

/-- The values of the header `X-Request-ID` on a list of requests. -/
def requestIDs (sent : List resty.WireRequest) : List (Option String) :=
  sent.map fun q => q.Header.Get "X-Request-ID"

/-- The request object that `CreateLog` hands to the transport. -/
def createLogRequest (requestID action : String) (details : Option (List (String × JSON))) :
    resty.Request :=
  { (resty.R.SetHeader "X-Request-ID" requestID).SetBody (createLogBody action details) with
    Method := "POST", URL := "/api/logs/" }

/-- The request object that `ListLogs` hands to the transport. -/
def listLogsRequest (requestID : String) (params : List (String × String)) : resty.Request :=
  { (resty.R.SetHeader "X-Request-ID" requestID).SetQueryParams params with
    Method := "GET", URL := "/api/logs/list/" }

/-- The URL of an endpoint, base URL and path, parses, so that the transport sends the
request. -/
def endpointParses (base path : String) : Bool :=
  match url.Parse (base ++ path) with
  | .ok _ => true
  | .error _ => false

/-- What a method returns for an outcome of the transport: the result of a response as
`value` reads it off the result target, or a nil result and the error wrapped
under the prefix of the method. -/
def returnOf {σ ρ : Type} (pfx : String) (value : σ → Option ρ)
    (out : resty.Attempt σ × resty.World) : Return ρ :=
  match out with
  | (.done resp, w) => { result := value resp.Result, err := none, world := w }
  | (.failed err, w) => { result := none, err := some (.errorf pfx err), world := w }
  | (.noRetry err, w) => { result := none, err := some (.errorf pfx err), world := w }

/-- The transport that the constructor builds for `https://api.example.com` and the
token of `example/main.go`. -/
def exampleTransport : resty.Client :=
  { BaseURL := "https://api.example.com",
    Header := [("Authorization", "Bearer your-jwt-token-here"),
               ("Content-Type", "application/json")],
    RetryCount := 3, RetryWaitTime := 1 * time.Second, RetryMaxWaitTime := 10 * time.Second }

/-- The client that the constructor builds for `https://api.example.com` and the token
of `example/main.go`. -/
def exampleClient : AuditTrailClient :=
  { client := some exampleTransport, baseURL := "https://api.example.com",
    token := "your-jwt-token-here" }

/-- A response of status 500 with a JSON body. -/
def serverError : resty.RawResponse :=
  { StatusCode := 500, Kind := .json,
    Body := .ok (.object [("detail", .string "Internal Server Error")]) }

mutual
/-- A JSON value that is a Go value of `encoding/json` as it stands: its numbers are in
the range of `float64` and no object names a key twice. -/
def isGoValue : JSON → Bool
  | .null => true
  | .bool _ => true
  | .string _ => true
  | .number n => json.JSONNumber.fitsFloat64 n
  | .array elems => allGoValues elems
  | .object members => decide ((members.map Prod.fst).Nodup) && memberGoValues members
/-- Every element is a Go value. -/
def allGoValues : List JSON → Bool
  | [] => true
  | j :: js => isGoValue j && allGoValues js
/-- Every member holds a Go value. -/
def memberGoValues : List (String × JSON) → Bool
  | [] => true
  | (_, j) :: ms => isGoValue j && memberGoValues ms
end

/-- A log entry whose `details`, when not nil, is a map of Go values with distinct keys. -/
def LogEntry.wellFormed (e : LogEntry) : Bool :=
  match e.Details with
  | none => true
  | some d => decide ((d.map Prod.fst).Nodup) && memberGoValues d

/-- The JSON value of an optional string: `null` when absent. -/
def optionalString : Option String → JSON
  | none => .null
  | some s => .string s

/-- Modelled from the spec: the JSON shape of a log entry that the remote service sends
(section 6, `{_id, timestamp, action, user_id, details, signature}`); the service
is not part of this repository. -/
def logEntryJSON (e : LogEntry) : JSON :=
  .object [("_id", .string e.ID), ("timestamp", .string e.Timestamp),
           ("action", .string e.Action), ("user_id", .string e.UserID),
           ("details", match e.Details with
                       | none => .null
                       | some d => .object d),
           ("signature", .string e.Signature)]

/-- Modelled from the spec: the JSON body of a page that the remote service sends for
the list endpoint (section 6, `{count, next, previous, results}`); the service is
not part of this repository. -/
def logListJSON (count : Int) (next previous : Option String) (results : List LogEntry) : JSON :=
  .object [("count", .number (.int count)), ("next", optionalString next),
           ("previous", optionalString previous),
           ("results", .array (results.map logEntryJSON))]

/-- Two entries of an audit trail, the second without details. -/
def exampleEntries : List LogEntry :=
  [{ ID := "665f1c", Timestamp := "2024-06-04T10:00:00Z", Action := "login", UserID := "u1",
     Details := some [("ip", .string "192.168.1.1"), ("attempt", .number (.int 1))],
     Signature := "c2ln" },
   { ID := "665f1d", Timestamp := "2024-06-04T10:05:00Z", Action := "logout", UserID := "u1",
     Details := none, Signature := "c2ln" }]

/-- A remote side that cannot be reached: every round trip ends in the error `err`. -/
def unreachable (err : GoError) : resty.Server := fun _ _ => .failure err

/-- A remote side that answers every request with the same response. -/
def answering (raw : resty.RawResponse) : resty.Server := fun _ _ => .response raw

/-- A remote side whose first `k` round trips end in the error `err` and which answers
with `raw` from then on. -/
def failingFirst (k : Nat) (err : GoError) (raw : resty.RawResponse) : resty.Server :=
  fun n _ => if n < k then .failure err else .response raw

/-- A remote side on which every POST ends in an error of the round trip while every
other request is answered with a page of two entries. -/
def postFails : resty.Server := fun _ q =>
  if q.Method = "POST" then .failure (.new "connection reset")
  else .response { StatusCode := 200, Kind := .json,
                   Body := .ok (logListJSON 2 none none exampleEntries) }

/-- A generator whose identifiers are numbered. -/
def numbered : Nat → String := fun n => "id-" ++ toString n

/-! ## Theorems -/

/-! ### Construction -/

theorem ParseRequestURI_empty : url.ParseRequestURI "" = .error (.urlError "parse" "" (.new "empty url")) := by
  rfl

/-- An empty base URL is refused with the error `baseURL is required`. -/
theorem NewAuditTrailClient_empty (token : String) :
    NewAuditTrailClient "" token = (none, some (.new "baseURL is required")) := by
  simp [NewAuditTrailClient]

/-- A non-empty base URL that `url.ParseRequestURI` refuses is refused, with the error
of the parser wrapped. -/
theorem NewAuditTrailClient_unparsable (baseURL token : String) (err : GoError)
    (h0 : baseURL ≠ "") (h : url.ParseRequestURI baseURL = .error err) :
    NewAuditTrailClient baseURL token = (none, some (.errorf "invalid baseURL: " err)) := by
  unfold NewAuditTrailClient
  rw [if_neg h0, h]

theorem canonical_Authorization : http.CanonicalMIMEHeaderKey "Authorization" = "Authorization" := by
  rfl

theorem canonical_ContentType : http.CanonicalMIMEHeaderKey "Content-Type" = "Content-Type" := by
  rfl

theorem canonical_RequestID : http.CanonicalMIMEHeaderKey "X-Request-ID" = "X-Request-Id" := by
  rfl

/-- What the constructor builds once the base URL has passed both checks. -/
theorem NewAuditTrailClient_parsable (baseURL token : String) (u : url.URL)
    (h0 : baseURL ≠ "") (h : url.ParseRequestURI baseURL = .ok u) :
    NewAuditTrailClient baseURL token =
      (some { client := some { BaseURL := resty.trimRightSlash baseURL,
                               Header := [("Authorization", "Bearer " ++ token),
                                          ("Content-Type", "application/json")],
                               RetryCount := 3,
                               RetryWaitTime := 1 * time.Second,
                               RetryMaxWaitTime := 10 * time.Second },
              baseURL := baseURL, token := token }, none) := by
  unfold NewAuditTrailClient
  rw [if_neg h0, h]
  simp only [resty.New, resty.Client.SetRetryCount, resty.Client.SetRetryWaitTime,
    resty.Client.SetRetryMaxWaitTime, resty.Client.SetBaseURL, resty.Client.SetHeader,
    http.Header.Set, canonical_Authorization, canonical_ContentType, http.mapSet]
  rw [if_neg (by decide)]

/-- C1, at the input that the claim names. The base URL `/foo`, an absolute path with
neither scheme nor host, passes both checks of `NewAuditTrailClient`: the call
returns a client and a nil error, not a nil client and an error. -/
theorem NewAuditTrailClient_accepts_bare_path (token : String) :
    validAbsoluteURL "/foo" = false ∧
    NewAuditTrailClient "/foo" token =
      (some { client := some { BaseURL := "/foo",
                               Header := [("Authorization", "Bearer " ++ token),
                                          ("Content-Type", "application/json")],
                               RetryCount := 3,
                               RetryWaitTime := 1 * time.Second,
                               RetryMaxWaitTime := 10 * time.Second },
              baseURL := "/foo", token := token }, none) := by
  refine ⟨by rfl, ?_⟩
  rw [NewAuditTrailClient_parsable "/foo" token { Path := "/foo" } (by decide) (by rfl)]
  rfl

/-- C2. For a base URL that is a valid absolute URL and any token, `NewAuditTrailClient`
returns a nil error and a client that records this base URL and token; its
transport has this base URL (as `SetBaseURL` stores it, without trailing
slashes), the headers `Authorization: Bearer <token>` and
`Content-Type: application/json` and no other, a retry count of 3, a retry wait
of 1 second and a maximal retry wait of 10 seconds. -/
theorem NewAuditTrailClient_valid (baseURL token : String)
    (h : validAbsoluteURL baseURL = true) :
    ∃ c transport,
      NewAuditTrailClient baseURL token = (some c, none) ∧
      c.baseURL = baseURL ∧ c.token = token ∧ c.client = some transport ∧
      transport.BaseURL = resty.trimRightSlash baseURL ∧
      transport.Header = [("Authorization", "Bearer " ++ token),
                          ("Content-Type", "application/json")] ∧
      transport.Header.Get "Authorization" = some ("Bearer " ++ token) ∧
      transport.Header.Get "Content-Type" = some "application/json" ∧
      transport.RetryCount = 3 ∧
      transport.RetryWaitTime = 1 * time.Second ∧
      transport.RetryMaxWaitTime = 10 * time.Second := by
  have h0 : baseURL ≠ "" := by
    intro h0
    subst h0
    revert h
    decide
  unfold validAbsoluteURL at h
  split at h
  · rename_i u hu
    refine ⟨_, _, NewAuditTrailClient_parsable baseURL token u h0 hu, rfl, rfl, rfl, rfl, rfl, ?_, ?_,
      rfl, rfl, rfl⟩
    · simp [http.Header.Get, canonical_Authorization, http.mapGet]
    · simp only [http.Header.Get, canonical_ContentType, http.mapGet]
      rw [if_neg (by decide)]
      simp
  · cases h

theorem NewAuditTrailClient_valid_witness :
    validAbsoluteURL "https://api.example.com/" = true ∧
    ∃ c transport,
      NewAuditTrailClient "https://api.example.com/" "your-jwt-token-here" = (some c, none) ∧
      c.baseURL = "https://api.example.com/" ∧ c.token = "your-jwt-token-here" ∧
      c.client = some transport ∧
      transport.BaseURL = resty.trimRightSlash "https://api.example.com/" ∧
      transport.Header = [("Authorization", "Bearer " ++ "your-jwt-token-here"),
                          ("Content-Type", "application/json")] ∧
      transport.Header.Get "Authorization" = some ("Bearer " ++ "your-jwt-token-here") ∧
      transport.Header.Get "Content-Type" = some "application/json" ∧
      transport.RetryCount = 3 ∧
      transport.RetryWaitTime = 1 * time.Second ∧
      transport.RetryMaxWaitTime = 10 * time.Second :=
  ⟨by rfl, NewAuditTrailClient_valid "https://api.example.com/" "your-jwt-token-here" (by rfl)⟩

/-! ### The guard on an empty base URL -/

theorem empty_baseURL_guard_aux (env : Env) (c : AuditTrailClient) (action : String)
    (details : Option (List (String × JSON))) (w : resty.World) (h : c.baseURL = "") :
    c.CreateLog env action details w =
      some { result := none,
             err := some (.new "client not properly initialized: baseURL is missing"),
             world := w } := by
  simp [AuditTrailClient.CreateLog, h]

theorem empty_baseURL_guard_list (env : Env) (c : AuditTrailClient)
    (params : List (String × String)) (w : resty.World) (h : c.baseURL = "") :
    c.ListLogs env params w =
      some { result := none,
             err := some (.new "client not properly initialized: baseURL is missing"),
             world := w } := by
  simp [AuditTrailClient.ListLogs, h]

/-- C9. On a client whose field `baseURL` is empty, whatever its other fields and
whatever the arguments, `CreateLog` and `ListLogs` return a nil result and the
error `client not properly initialized: baseURL is missing`, and leave the
world as it was: no request is sent and no identifier is drawn. -/
theorem empty_baseURL_guard (env : Env) (c : AuditTrailClient) (action : String)
    (details : Option (List (String × JSON))) (params : List (String × String))
    (w : resty.World) (h : c.baseURL = "") :
    c.CreateLog env action details w =
      some { result := none,
             err := some (.new "client not properly initialized: baseURL is missing"),
             world := w } ∧
    c.ListLogs env params w =
      some { result := none,
             err := some (.new "client not properly initialized: baseURL is missing"),
             world := w } := by
  simp [AuditTrailClient.CreateLog, AuditTrailClient.ListLogs, h]

theorem empty_baseURL_guard_witness :
    ({ client := none, baseURL := "", token := "" } : AuditTrailClient).baseURL = "" ∧
    (({ client := none, baseURL := "", token := "" } : AuditTrailClient).CreateLog
        { uuid := numbered, server := unreachable (.new "connection refused") } "login" none {} =
      some { result := none,
             err := some (.new "client not properly initialized: baseURL is missing"),
             world := {} } ∧
    ({ client := none, baseURL := "", token := "" } : AuditTrailClient).ListLogs
        { uuid := numbered, server := unreachable (.new "connection refused") } [("page", "1")] {} =
      some { result := none,
             err := some (.new "client not properly initialized: baseURL is missing"),
             world := {} }) :=
  ⟨rfl, empty_baseURL_guard _ _ "login" none [("page", "1")] {} rfl⟩

/-! ### The retry loop -/

theorem execute_unparsable {ρ : Type} (server : resty.Server) (c : resty.Client) (r : resty.Request)
    (zero : ρ) (unmarshal : ρ → JSON → Except GoError ρ) (w : resty.World) (err : GoError)
    (hurl : url.Parse (resty.requestURLText c r) = .error err) :
    c.execute server r zero unmarshal w = (.noRetry err, w) := by
  simp [resty.Client.execute, hurl]

theorem execute_failure {ρ : Type} (server : resty.Server) (c : resty.Client) (r : resty.Request)
    (zero : ρ) (unmarshal : ρ → JSON → Except GoError ρ) (w : resty.World) (err : GoError)
    (u : url.URL) (hurl : url.Parse (resty.requestURLText c r) = .ok u)
    (h : server w.sent.length (resty.wireRequest c r) = .failure err) :
    c.execute server r zero unmarshal w =
      (.failed err, { uuids := w.uuids, sent := w.sent ++ [resty.wireRequest c r] }) := by
  simp [resty.Client.execute, hurl, h]

theorem execute_response {ρ : Type} (server : resty.Server) (c : resty.Client) (r : resty.Request)
    (zero : ρ) (unmarshal : ρ → JSON → Except GoError ρ) (w : resty.World)
    (raw : resty.RawResponse) (u : url.URL) (hurl : url.Parse (resty.requestURLText c r) = .ok u)
    (h : server w.sent.length (resty.wireRequest c r) = .response raw) :
    c.execute server r zero unmarshal w =
      (resty.parseResponseBody raw zero unmarshal,
        { uuids := w.uuids, sent := w.sent ++ [resty.wireRequest c r] }) := by
  simp [resty.Client.execute, hurl, h]

theorem parseResponseBody_not_failed {ρ : Type} (raw : resty.RawResponse) (zero : ρ)
    (unmarshal : ρ → JSON → Except GoError ρ) (err : GoError) :
    resty.parseResponseBody raw zero unmarshal ≠ .failed err := by
  unfold resty.parseResponseBody
  intro h
  split at h
  · cases h
  · split at h
    · split at h
      · cases h
      · split at h <;> cases h
    · cases h

/-- One attempt sends the request of the call once, or nothing when the URL of the
request does not parse. -/
theorem execute_world {ρ : Type} (server : resty.Server) (c : resty.Client) (r : resty.Request)
    (zero : ρ) (unmarshal : ρ → JSON → Except GoError ρ) (w : resty.World) :
    (∀ u, url.Parse (resty.requestURLText c r) = .ok u →
      (c.execute server r zero unmarshal w).2 =
        { uuids := w.uuids, sent := w.sent ++ [resty.wireRequest c r] }) ∧
    (∀ err, url.Parse (resty.requestURLText c r) = .error err →
      c.execute server r zero unmarshal w = (.noRetry err, w)) := by
  constructor
  · intro u hurl
    cases h : server w.sent.length (resty.wireRequest c r) with
    | failure err => rw [execute_failure server c r zero unmarshal w err u hurl h]
    | response raw => rw [execute_response server c r zero unmarshal w raw u hurl h]
  · intro err hurl
    exact execute_unparsable server c r zero unmarshal w err hurl

/-- The requests of one `Execute`: the same request, once per attempt, at most one
attempt more than the retry count, and at least one attempt when the URL of the
request parses. -/
theorem Backoff_sent {ρ : Type} (server : resty.Server) (c : resty.Client) (r : resty.Request)
    (zero : ρ) (unmarshal : ρ → JSON → Except GoError ρ) :
    ∀ (k : Nat) (w : resty.World), ∃ m, m ≤ k + 1 ∧
      ((∃ u, url.Parse (resty.requestURLText c r) = .ok u) → 1 ≤ m) ∧
      (resty.Backoff (c.execute server r zero unmarshal) k w).2 =
        { uuids := w.uuids, sent := w.sent ++ List.replicate m (resty.wireRequest c r) } := by
  cases hurl : url.Parse (resty.requestURLText c r) with
  | error err =>
    intro k w
    refine ⟨0, by omega, ?_, ?_⟩
    · intro h
      obtain ⟨u, hu⟩ := h
      cases hu
    have hex := execute_unparsable server c r zero unmarshal w err hurl
    cases k with
    | zero => simp [resty.Backoff, hex]
    | succ n => simp [resty.Backoff, hex]
  | ok u =>
    intro k
    induction k with
    | zero =>
      intro w
      exact ⟨1, le_refl _, fun _ => le_refl _,
        by simp [resty.Backoff, (execute_world server c r zero unmarshal w).1 u hurl]⟩
    | succ n ih =>
      intro w
      have hw := (execute_world server c r zero unmarshal w).1 u hurl
      unfold resty.Backoff
      split
      · rename_i err w1 heq
        rw [heq] at hw
        simp only at hw
        obtain ⟨m, h1, _, h3⟩ := ih w1
        refine ⟨m + 1, by omega, fun _ => by omega, ?_⟩
        rw [h3, hw]
        simp [List.replicate_succ]
      · exact ⟨1, by omega, fun _ => le_refl _, by simp [hw]⟩

/-- When the URL of the request parses and every round trip fails, `Execute` makes one
attempt more than the retry count and ends in an error that came from a round
trip. -/
theorem Backoff_unreachable {ρ : Type} (server : resty.Server) (c : resty.Client)
    (r : resty.Request) (zero : ρ) (unmarshal : ρ → JSON → Except GoError ρ)
    (u : url.URL) (hurl : url.Parse (resty.requestURLText c r) = .ok u)
    (hfail : ∀ n q, ∃ e, server n q = .failure e) :
    ∀ (k : Nat) (w : resty.World), ∃ e,
      resty.Backoff (c.execute server r zero unmarshal) k w =
        (.failed e, { uuids := w.uuids,
                      sent := w.sent ++ List.replicate (k + 1) (resty.wireRequest c r) }) := by
  intro k
  induction k with
  | zero =>
    intro w
    obtain ⟨e, he⟩ := hfail w.sent.length (resty.wireRequest c r)
    exact ⟨e, by simp [resty.Backoff, execute_failure server c r zero unmarshal w e u hurl he]⟩
  | succ n ih =>
    intro w
    obtain ⟨e, he⟩ := hfail w.sent.length (resty.wireRequest c r)
    obtain ⟨e1, he1⟩ := ih { uuids := w.uuids, sent := w.sent ++ [resty.wireRequest c r] }
    refine ⟨e1, ?_⟩
    unfold resty.Backoff
    rw [execute_failure server c r zero unmarshal w e u hurl he]
    simp only
    rw [he1]
    simp [List.replicate_succ]

/-- When the URL of the request parses, the first `j` round trips fail and the next
one brings a response, with `j` within the retry count, `Execute` makes `j + 1`
attempts and ends with that response as `parseResponseBody` reads it. -/
theorem Backoff_answer {ρ : Type} (server : resty.Server) (c : resty.Client)
    (r : resty.Request) (zero : ρ) (unmarshal : ρ → JSON → Except GoError ρ)
    (raw : resty.RawResponse) (u : url.URL) (hurl : url.Parse (resty.requestURLText c r) = .ok u) :
    ∀ (j k : Nat) (w : resty.World), j ≤ k →
      (∀ i, i < j → ∃ e, server (w.sent.length + i) (resty.wireRequest c r) = .failure e) →
      server (w.sent.length + j) (resty.wireRequest c r) = .response raw →
      resty.Backoff (c.execute server r zero unmarshal) k w =
        (resty.parseResponseBody raw zero unmarshal,
          { uuids := w.uuids,
            sent := w.sent ++ List.replicate (j + 1) (resty.wireRequest c r) }) := by
  intro j
  induction j with
  | zero =>
    intro k w _ _ hresp
    have hex := execute_response server c r zero unmarshal w raw u hurl (by simpa using hresp)
    cases k with
    | zero => simp [resty.Backoff, hex]
    | succ n =>
      unfold resty.Backoff
      rw [hex]
      split
      · rename_i err w1 heq
        exact absurd (congrArg Prod.fst heq) (parseResponseBody_not_failed raw zero unmarshal err)
      · simp
  | succ j ih =>
    intro k w hjk hfail hresp
    cases k with
    | zero => omega
    | succ n =>
      obtain ⟨e, he⟩ := hfail 0 (by omega)
      have hex := execute_failure server c r zero unmarshal w e u hurl (by simpa using he)
      unfold resty.Backoff
      rw [hex]
      simp only
      rw [ih n { uuids := w.uuids, sent := w.sent ++ [resty.wireRequest c r] } (by omega)]
      · simp [List.replicate_succ]
      · intro i hi
        obtain ⟨e1, he1⟩ := hfail (i + 1) (by omega)
        refine ⟨e1, ?_⟩
        simp only [List.length_append, List.length_singleton]
        rw [← he1]
        congr 1
        omega
      · simp only [List.length_append, List.length_singleton]
        rw [← hresp]
        congr 1
        omega

/-! ### The two methods over the retry loop -/

/-- `CreateLog` on a client that passes the guard and has a transport: one identifier
is drawn, then the request runs under the retry loop of the transport. -/
theorem CreateLog_unfold (env : Env) (c : AuditTrailClient) (rc : resty.Client) (action : String)
    (details : Option (List (String × JSON))) (w : resty.World)
    (h0 : c.baseURL ≠ "") (hc : c.client = some rc) :
    c.CreateLog env action details w =
      some (returnOf "failed to create log: " id
        (resty.Backoff
          (rc.execute env.server (createLogRequest (env.uuid w.uuids) action details) (some [])
            json.unmarshalStringMap)
          rc.RetryCount { uuids := w.uuids + 1, sent := w.sent })) := by
  unfold AuditTrailClient.CreateLog
  rw [if_neg h0]
  simp only [hc, resty.Request.Post, resty.Request.Execute, createLogRequest]
  generalize resty.Backoff _ _ _ = out
  obtain ⟨a, w2⟩ := out
  cases a <;> rfl

/-- `ListLogs` on a client that passes the guard and has a transport. -/
theorem ListLogs_unfold (env : Env) (c : AuditTrailClient) (rc : resty.Client)
    (params : List (String × String)) (w : resty.World)
    (h0 : c.baseURL ≠ "") (hc : c.client = some rc) :
    c.ListLogs env params w =
      some (returnOf "failed to list logs: " some
        (resty.Backoff
          (rc.execute env.server (listLogsRequest (env.uuid w.uuids) params) {}
            json.unmarshalLogListResponse)
          rc.RetryCount { uuids := w.uuids + 1, sent := w.sent })) := by
  unfold AuditTrailClient.ListLogs
  rw [if_neg h0]
  simp only [hc, resty.Request.Get, resty.Request.Execute, listLogsRequest]
  generalize resty.Backoff _ _ _ = out
  obtain ⟨a, w2⟩ := out
  cases a <;> rfl

/-- A client that the constructor returned has a non-empty base URL and a transport
with a retry count of 3 and the base URL without its trailing slashes. -/
theorem NewAuditTrailClient_constructed (baseURL token : String) (c : AuditTrailClient)
    (h : NewAuditTrailClient baseURL token = (some c, none)) :
    c.baseURL ≠ "" ∧ ∃ rc, c.client = some rc ∧ rc.RetryCount = 3 ∧
      rc.BaseURL = resty.trimRightSlash baseURL := by
  unfold NewAuditTrailClient at h
  split at h
  · cases h
  · rename_i h0
    split at h
    · cases h
    · simp only [Prod.mk.injEq, Option.some.injEq, and_true] at h
      subst h
      exact ⟨h0, _, rfl, rfl, rfl⟩

theorem endpointParses_ok (base path : String) (h : endpointParses base path = true) :
    ∃ u, url.Parse (base ++ path) = .ok u := by
  unfold endpointParses at h
  split at h
  · exact ⟨_, by assumption⟩
  · cases h

theorem requestURLText_createLog (rc : resty.Client) (requestID action : String)
    (details : Option (List (String × JSON))) :
    resty.requestURLText rc (createLogRequest requestID action details) =
      rc.BaseURL ++ "/api/logs/" := by
  rfl

theorem requestURLText_listLogs (rc : resty.Client) (requestID : String)
    (params : List (String × String)) :
    resty.requestURLText rc (listLogsRequest requestID params) = rc.BaseURL ++ "/api/logs/list/" := by
  rfl

/-- The outcome of `CreateLog` when the URL of its request parses, the first `j` round
trips fail and the next one brings the response `raw`, with `j` within the retry
count. -/
theorem CreateLog_answer (env : Env) (c : AuditTrailClient) (rc : resty.Client) (action : String)
    (details : Option (List (String × JSON))) (w : resty.World) (raw : resty.RawResponse)
    (j : Nat) (h0 : c.baseURL ≠ "") (hc : c.client = some rc)
    (hurl : endpointParses rc.BaseURL "/api/logs/" = true) (hj : j ≤ rc.RetryCount)
    (hfail : ∀ i, i < j → ∀ q, ∃ e, env.server (w.sent.length + i) q = .failure e)
    (hresp : ∀ q, env.server (w.sent.length + j) q = .response raw) :
    c.CreateLog env action details w =
      some (returnOf "failed to create log: " id
        (resty.parseResponseBody raw (some []) json.unmarshalStringMap,
          { uuids := w.uuids + 1,
            sent := w.sent ++ List.replicate (j + 1)
              (resty.wireRequest rc (createLogRequest (env.uuid w.uuids) action details)) })) := by
  obtain ⟨u, hu⟩ := endpointParses_ok _ _ hurl
  rw [← requestURLText_createLog rc (env.uuid w.uuids) action details] at hu
  rw [CreateLog_unfold env c rc action details w h0 hc,
    Backoff_answer env.server rc _ (some []) json.unmarshalStringMap raw u hu j rc.RetryCount
      { uuids := w.uuids + 1, sent := w.sent } hj (fun i hi => hfail i hi _) (hresp _)]

/-- The outcome of `ListLogs` when the URL of its request parses, the first `j` round
trips fail and the next one brings the response `raw`, with `j` within the retry
count. -/
theorem ListLogs_answer (env : Env) (c : AuditTrailClient) (rc : resty.Client)
    (params : List (String × String)) (w : resty.World) (raw : resty.RawResponse)
    (j : Nat) (h0 : c.baseURL ≠ "") (hc : c.client = some rc)
    (hurl : endpointParses rc.BaseURL "/api/logs/list/" = true) (hj : j ≤ rc.RetryCount)
    (hfail : ∀ i, i < j → ∀ q, ∃ e, env.server (w.sent.length + i) q = .failure e)
    (hresp : ∀ q, env.server (w.sent.length + j) q = .response raw) :
    c.ListLogs env params w =
      some (returnOf "failed to list logs: " some
        (resty.parseResponseBody raw {} json.unmarshalLogListResponse,
          { uuids := w.uuids + 1,
            sent := w.sent ++ List.replicate (j + 1)
              (resty.wireRequest rc (listLogsRequest (env.uuid w.uuids) params)) })) := by
  obtain ⟨u, hu⟩ := endpointParses_ok _ _ hurl
  rw [← requestURLText_listLogs rc (env.uuid w.uuids) params] at hu
  rw [ListLogs_unfold env c rc params w h0 hc,
    Backoff_answer env.server rc _ {} json.unmarshalLogListResponse raw u hu j rc.RetryCount
      { uuids := w.uuids + 1, sent := w.sent } hj (fun i hi => hfail i hi _) (hresp _)]

/-- The outcome of `CreateLog` when the URL of its request parses and every round trip
fails. -/
theorem CreateLog_unreachable (env : Env) (c : AuditTrailClient) (rc : resty.Client)
    (action : String) (details : Option (List (String × JSON))) (w : resty.World)
    (h0 : c.baseURL ≠ "") (hc : c.client = some rc)
    (hurl : endpointParses rc.BaseURL "/api/logs/" = true)
    (hfail : ∀ n q, ∃ e, env.server n q = .failure e) :
    ∃ e, c.CreateLog env action details w =
      some { result := none, err := some (.errorf "failed to create log: " e),
             world := { uuids := w.uuids + 1,
                        sent := w.sent ++ List.replicate (rc.RetryCount + 1)
                          (resty.wireRequest rc
                            (createLogRequest (env.uuid w.uuids) action details)) } } := by
  obtain ⟨u, hu⟩ := endpointParses_ok _ _ hurl
  rw [← requestURLText_createLog rc (env.uuid w.uuids) action details] at hu
  obtain ⟨e, he⟩ := Backoff_unreachable env.server rc
    (createLogRequest (env.uuid w.uuids) action details) (some []) json.unmarshalStringMap u hu hfail
    rc.RetryCount { uuids := w.uuids + 1, sent := w.sent }
  exact ⟨e, by rw [CreateLog_unfold env c rc action details w h0 hc, he]; rfl⟩

/-! ### Retries -/

theorem exampleClient_constructed :
    NewAuditTrailClient "https://api.example.com" "your-jwt-token-here" =
      (some exampleClient, none) :=
  NewAuditTrailClient_parsable "https://api.example.com" "your-jwt-token-here"
    { Scheme := "https", Host := "api.example.com" } (by decide) (by rfl)


/-- C3, as amended. On a client that the constructor returned and whose endpoint URL
parses, when every round trip fails, `CreateLog` returns a nil result and an
error after exactly 4 attempts: the first attempt and the 3 retries of the retry
count. -/
theorem CreateLog_unreachable_attempts (env : Env) (baseURL token : String)
    (c : AuditTrailClient) (action : String) (details : Option (List (String × JSON)))
    (w : resty.World)
    (hc : NewAuditTrailClient baseURL token = (some c, none))
    (hurl : endpointParses (resty.trimRightSlash baseURL) "/api/logs/" = true)
    (hfail : ∀ n q, ∃ e, env.server n q = .failure e) :
    ∃ ret, c.CreateLog env action details w = some ret ∧
      ret.result = none ∧ ret.err.isSome = true ∧
      ret.world.sent.length = w.sent.length + 4 := by
  obtain ⟨h0, rc, hrc, h3, hbase⟩ := NewAuditTrailClient_constructed baseURL token c hc
  obtain ⟨e, he⟩ := CreateLog_unreachable env c rc action details w h0 hrc
    (by rw [hbase]; exact hurl) hfail
  exact ⟨_, he, rfl, rfl, by simp [h3]⟩

theorem CreateLog_unreachable_attempts_witness :
    ∃ c, NewAuditTrailClient "https://api.example.com" "your-jwt-token-here" = (some c, none) ∧
      endpointParses (resty.trimRightSlash "https://api.example.com") "/api/logs/" = true ∧
      ∃ ret, c.CreateLog { uuid := numbered, server := unreachable (.new "connection refused") }
          "login" none {} = some ret ∧
        ret.result = none ∧ ret.err.isSome = true ∧
        ret.world.sent.length = ({} : resty.World).sent.length + 4 :=
  ⟨_, NewAuditTrailClient_parsable "https://api.example.com" "your-jwt-token-here"
        { Scheme := "https", Host := "api.example.com" } (by decide) (by rfl),
    (by rfl),
    CreateLog_unreachable_attempts
      { uuid := numbered, server := unreachable (.new "connection refused") }
      "https://api.example.com" "your-jwt-token-here" _ "login" none {}
      (NewAuditTrailClient_parsable "https://api.example.com" "your-jwt-token-here"
        { Scheme := "https", Host := "api.example.com" } (by decide) (by rfl))
      (by rfl) (fun _ _ => ⟨_, rfl⟩)⟩

/-- C3, as the claim has it, fails. The client built for `https://api.example.com`,
against a remote side that cannot be reached, returns its error after 4 requests
on the wire, not 3. -/
theorem CreateLog_unreachable_four_requests :
    (((NewAuditTrailClient "https://api.example.com" "your-jwt-token-here").1.bind fun c =>
        c.CreateLog { uuid := numbered, server := unreachable (.new "connection refused") }
          "login" none {}).map fun ret =>
        (ret.result.isNone, ret.err.isSome, ret.world.sent.length)) = some (true, true, 4) ∧
    (4 : Nat) ≠ 3 := by
  refine ⟨?_, by decide⟩
  rw [NewAuditTrailClient_parsable "https://api.example.com" "your-jwt-token-here"
        { Scheme := "https", Host := "api.example.com" } (by decide) (by rfl)]
  rfl

/-! ### The request identifier -/

theorem mapGet_append_some {α : Type} (m l : List (String × α)) (k : String) (v : α)
    (h : http.mapGet m k = some v) : http.mapGet (m ++ l) k = some v := by
  induction m with
  | nil => simp [http.mapGet] at h
  | cons a m ih =>
    obtain ⟨k1, v1⟩ := a
    simp only [List.cons_append, http.mapGet] at h ⊢
    split
    · rename_i hk
      simpa [hk] using h
    · rename_i hk
      rw [if_neg hk] at h
      exact ih h

/-- A header that the request sets reaches the wire with the value of the request. -/
theorem mergeHeader_get (rc : resty.Client) (r : resty.Request) (k v : String)
    (h : http.mapGet r.Header k = some v) : http.mapGet (resty.mergeHeader rc r) k = some v := by
  unfold resty.mergeHeader
  generalize r.Header = h0 at h
  induction rc.Header generalizing h0 with
  | nil => simpa using h
  | cons kv l ih =>
    simp only [List.foldl_cons]
    apply ih
    split
    · exact h
    · exact mapGet_append_some h0 [kv] k v h

theorem createLogWire_requestID (rc : resty.Client) (requestID action : String)
    (details : Option (List (String × JSON))) :
    (resty.wireRequest rc (createLogRequest requestID action details)).Header.Get "X-Request-ID" =
      some requestID := by
  unfold http.Header.Get resty.wireRequest
  apply mergeHeader_get
  simp [createLogRequest, resty.Request.SetBody, resty.Request.SetHeader, resty.R,
    http.Header.Set, http.mapSet, http.mapGet]

theorem listLogsWire_requestID (rc : resty.Client) (requestID : String)
    (params : List (String × String)) :
    (resty.wireRequest rc (listLogsRequest requestID params)).Header.Get "X-Request-ID" =
      some requestID := by
  unfold http.Header.Get resty.wireRequest
  apply mergeHeader_get
  simp [listLogsRequest, resty.Request.SetQueryParams, resty.Request.SetHeader, resty.R,
    http.Header.Set, http.mapSet, http.mapGet]

theorem requestIDs_replicate (m : Nat) (q : resty.WireRequest) (v : String)
    (h : q.Header.Get "X-Request-ID" = some v) :
    requestIDs (List.replicate m q) = List.replicate m (some v) := by
  simp [requestIDs, h]

/-- The requests of a call that passed the guard: the one request of the call, once
per attempt. -/
theorem returnOf_Backoff_world {σ ρ : Type} (pfx : String) (value : σ → Option ρ)
    (server : resty.Server) (rc : resty.Client) (r : resty.Request) (zero : σ)
    (unmarshal : σ → JSON → Except GoError σ) (w : resty.World) :
    ∃ m, m ≤ rc.RetryCount + 1 ∧
      ((∃ u, url.Parse (resty.requestURLText rc r) = .ok u) → 1 ≤ m) ∧
      (returnOf pfx value
        (resty.Backoff (rc.execute server r zero unmarshal) rc.RetryCount w)).world =
        { uuids := w.uuids, sent := w.sent ++ List.replicate m (resty.wireRequest rc r) } := by
  obtain ⟨m, h1, h2, h3⟩ := Backoff_sent server rc r zero unmarshal rc.RetryCount w
  refine ⟨m, h1, h2, ?_⟩
  rw [← h3]
  generalize resty.Backoff _ _ _ = out
  obtain ⟨a, w2⟩ := out
  cases a <;> rfl

/-- C4, as amended. In a call of `CreateLog` or `ListLogs` that passes the guard, one
identifier is drawn from the generator, and every attempt of the call, the first
and each retry, sends the same request with that identifier as the value of
`X-Request-ID`; the next call draws the next identifier. The attempts are at
most one more than the retry count, and at least one when the URL of the request
parses. -/
theorem request_id_shared_by_attempts (env : Env) (c : AuditTrailClient) (rc : resty.Client)
    (action : String) (details : Option (List (String × JSON))) (params : List (String × String))
    (w : resty.World) (h0 : c.baseURL ≠ "") (hc : c.client = some rc) :
    (∃ m ret, m ≤ rc.RetryCount + 1 ∧ (endpointParses rc.BaseURL "/api/logs/" = true → 1 ≤ m) ∧
      c.CreateLog env action details w = some ret ∧
      ret.world.uuids = w.uuids + 1 ∧
      ret.world.sent = w.sent ++ List.replicate m
        (resty.wireRequest rc (createLogRequest (env.uuid w.uuids) action details)) ∧
      requestIDs (ret.world.sent.drop w.sent.length) =
        List.replicate m (some (env.uuid w.uuids))) ∧
    (∃ m ret, m ≤ rc.RetryCount + 1 ∧ (endpointParses rc.BaseURL "/api/logs/list/" = true → 1 ≤ m) ∧
      c.ListLogs env params w = some ret ∧
      ret.world.uuids = w.uuids + 1 ∧
      ret.world.sent = w.sent ++ List.replicate m
        (resty.wireRequest rc (listLogsRequest (env.uuid w.uuids) params)) ∧
      requestIDs (ret.world.sent.drop w.sent.length) =
        List.replicate m (some (env.uuid w.uuids))) := by
  constructor
  · obtain ⟨m, h1, h2, h3⟩ := returnOf_Backoff_world "failed to create log: " id env.server rc
      (createLogRequest (env.uuid w.uuids) action details) (some []) json.unmarshalStringMap
      { uuids := w.uuids + 1, sent := w.sent }
    refine ⟨m, _, h1, fun hp => h2 (endpointParses_ok _ _ hp),
      CreateLog_unfold env c rc action details w h0 hc, ?_, ?_, ?_⟩
    · rw [h3]
    · rw [h3]
    · rw [h3]
      simp only [List.drop_left]
      exact requestIDs_replicate m _ _ (createLogWire_requestID rc _ action details)
  · obtain ⟨m, h1, h2, h3⟩ := returnOf_Backoff_world "failed to list logs: " some env.server rc
      (listLogsRequest (env.uuid w.uuids) params) {} json.unmarshalLogListResponse
      { uuids := w.uuids + 1, sent := w.sent }
    refine ⟨m, _, h1, fun hp => h2 (endpointParses_ok _ _ hp),
      ListLogs_unfold env c rc params w h0 hc, ?_, ?_, ?_⟩
    · rw [h3]
    · rw [h3]
    · rw [h3]
      simp only [List.drop_left]
      exact requestIDs_replicate m _ _ (listLogsWire_requestID rc _ params)

theorem request_id_shared_by_attempts_witness :
    exampleClient.baseURL ≠ "" ∧
    (∃ m ret, m ≤ exampleTransport.RetryCount + 1 ∧
      (endpointParses exampleTransport.BaseURL "/api/logs/" = true → 1 ≤ m) ∧
      exampleClient.CreateLog
        { uuid := numbered, server := unreachable (.new "connection refused") }
        "login" none {} = some ret ∧
      ret.world.uuids = ({} : resty.World).uuids + 1 ∧
      ret.world.sent = ({} : resty.World).sent ++ List.replicate m
        (resty.wireRequest exampleTransport (createLogRequest (numbered 0) "login" none)) ∧
      requestIDs (ret.world.sent.drop ({} : resty.World).sent.length) =
        List.replicate m (some (numbered 0))) ∧
    (∃ m ret, m ≤ exampleTransport.RetryCount + 1 ∧
      (endpointParses exampleTransport.BaseURL "/api/logs/list/" = true → 1 ≤ m) ∧
      exampleClient.ListLogs
        { uuid := numbered, server := unreachable (.new "connection refused") }
        [("page", "1")] {} = some ret ∧
      ret.world.uuids = ({} : resty.World).uuids + 1 ∧
      ret.world.sent = ({} : resty.World).sent ++ List.replicate m
        (resty.wireRequest exampleTransport (listLogsRequest (numbered 0) [("page", "1")])) ∧
      requestIDs (ret.world.sent.drop ({} : resty.World).sent.length) =
        List.replicate m (some (numbered 0))) :=
  ⟨by decide,
    request_id_shared_by_attempts
      { uuid := numbered, server := unreachable (.new "connection refused") }
      exampleClient exampleTransport "login" none [("page", "1")] {} (by decide) rfl⟩

/-- C4, as the claim has it, fails. Against a remote side that cannot be reached, the
4 attempts of one call of `CreateLog` all carry the identifier drawn for the
call, and so do the 4 attempts of one call of `ListLogs`: the values of
`X-Request-ID` are not pairwise distinct. -/
theorem retries_repeat_request_id :
    (((NewAuditTrailClient "https://api.example.com" "your-jwt-token-here").1.bind fun c =>
        c.CreateLog { uuid := numbered, server := unreachable (.new "connection refused") }
          "login" none {}).map fun ret => requestIDs ret.world.sent) =
      some [some (numbered 0), some (numbered 0), some (numbered 0), some (numbered 0)] ∧
    (((NewAuditTrailClient "https://api.example.com" "your-jwt-token-here").1.bind fun c =>
        c.ListLogs { uuid := numbered, server := unreachable (.new "connection refused") }
          [("page", "1")] {}).map fun ret => requestIDs ret.world.sent) =
      some [some (numbered 0), some (numbered 0), some (numbered 0), some (numbered 0)] ∧
    ¬ [some (numbered 0), some (numbered 0), some (numbered 0), some (numbered 0)].Nodup := by
  refine ⟨?_, ?_, by simp⟩
  · rw [NewAuditTrailClient_parsable "https://api.example.com" "your-jwt-token-here"
        { Scheme := "https", Host := "api.example.com" } (by decide) (by rfl)]
    rfl
  · rw [NewAuditTrailClient_parsable "https://api.example.com" "your-jwt-token-here"
        { Scheme := "https", Host := "api.example.com" } (by decide) (by rfl)]
    rfl

/-- C7, as amended. On a client that the constructor returned and whose endpoint URL
parses, when the first 2 round trips fail and the 3rd brings a response of
success status other than 204 and of JSON content type whose body decodes to the
mapping `m`, `CreateLog` returns `m` and a nil error, after 3 attempts. -/
theorem CreateLog_succeeds_on_third_attempt (env : Env) (baseURL token : String)
    (c : AuditTrailClient) (action : String) (details : Option (List (String × JSON)))
    (w : resty.World) (e1 e2 : GoError) (status : Nat) (body : JSON)
    (m : Option (List (String × String)))
    (hc : NewAuditTrailClient baseURL token = (some c, none))
    (hurl : endpointParses (resty.trimRightSlash baseURL) "/api/logs/" = true)
    (h1 : ∀ q, env.server w.sent.length q = .failure e1)
    (h2 : ∀ q, env.server (w.sent.length + 1) q = .failure e2)
    (h3 : ∀ q, env.server (w.sent.length + 2) q =
      .response { StatusCode := status, Kind := .json, Body := .ok body })
    (hs : resty.IsSuccess status = true) (h204 : status ≠ 204)
    (hm : json.unmarshalStringMap (some []) body = .ok m) :
    ∃ ret, c.CreateLog env action details w = some ret ∧
      ret.result = m ∧ ret.err = none ∧
      ret.world.sent.length = w.sent.length + 3 := by
  obtain ⟨h0, rc, hrc, hcount, hbase⟩ := NewAuditTrailClient_constructed baseURL token c hc
  refine ⟨_, CreateLog_answer env c rc action details w _ 2 h0 hrc
    (by rw [hbase]; exact hurl) (by omega) ?_ h3, ?_, ?_, ?_⟩
  · intro i hi q
    match i, hi with
    | 0, _ => exact ⟨e1, h1 q⟩
    | 1, _ => exact ⟨e2, h2 q⟩
  · simp [returnOf, resty.parseResponseBody, h204, hs, hm]
  · simp [returnOf, resty.parseResponseBody, h204, hs, hm]
  · simp [returnOf, resty.parseResponseBody, h204, hs, hm]

theorem CreateLog_succeeds_on_third_attempt_witness :
    ∃ c, NewAuditTrailClient "https://api.example.com" "your-jwt-token-here" = (some c, none) ∧
      endpointParses (resty.trimRightSlash "https://api.example.com") "/api/logs/" = true ∧
      ∃ ret, c.CreateLog
          { uuid := numbered,
            server := failingFirst 2 (.new "connection refused")
              { StatusCode := 200, Kind := .json,
                Body := .ok (.object [("status", .string "ok")]) } }
          "login" (some [("ip", .string "192.168.1.1")]) {} = some ret ∧
        ret.result = some [("status", "ok")] ∧ ret.err = none ∧
        ret.world.sent.length = ({} : resty.World).sent.length + 3 :=
  ⟨_, NewAuditTrailClient_parsable "https://api.example.com" "your-jwt-token-here"
        { Scheme := "https", Host := "api.example.com" } (by decide) (by rfl),
    (by rfl),
    CreateLog_succeeds_on_third_attempt
      { uuid := numbered,
        server := failingFirst 2 (.new "connection refused")
          { StatusCode := 200, Kind := .json, Body := .ok (.object [("status", .string "ok")]) } }
      "https://api.example.com" "your-jwt-token-here" _ "login"
      (some [("ip", .string "192.168.1.1")]) {} (.new "connection refused")
      (.new "connection refused") 200 (.object [("status", .string "ok")])
      (some [("status", "ok")])
      (NewAuditTrailClient_parsable "https://api.example.com" "your-jwt-token-here"
        { Scheme := "https", Host := "api.example.com" } (by decide) (by rfl))
      (by rfl) (fun _ => rfl) (fun _ => rfl) (fun _ => rfl) (by decide) (by decide) (by rfl)⟩

/-- C7, as the claim has it, fails. The client built for `https://api.example.com`
meets 2 failed round trips and then a response of status 200 with the body
`{"status":"ok"}` under a content type that is not JSON: the body is not decoded,
and `CreateLog` returns the empty mapping with a nil error after 3 attempts, not
the mapping `{"status":"ok"}`. -/
theorem third_answer_not_decoded :
    (((NewAuditTrailClient "https://api.example.com" "your-jwt-token-here").1.bind fun c =>
        c.CreateLog
          { uuid := numbered,
            server := failingFirst 2 (.new "connection refused")
              { StatusCode := 200, Kind := .other,
                Body := .ok (.object [("status", .string "ok")]) } }
          "login" (some [("ip", .string "192.168.1.1")]) {}).map
      fun ret => (ret.result, ret.err, ret.world.sent.length)) = some (some [], none, 3) ∧
    (some [] : Option (List (String × String))) ≠ some [("status", "ok")] := by
  refine ⟨?_, by decide⟩
  rw [exampleClient_constructed]
  rfl

/-! ### Errors of the transport -/

/-- C10. On a client that passes the guard, whenever the transport ends the exchange
of `CreateLog` with an error `e`, `CreateLog` returns a nil result and an error
that wraps `e`: `errors.Unwrap` gives `e` back, and the message is
`failed to create log: ` followed by the message of `e`. Likewise, and
independently, whenever the transport ends the exchange of `ListLogs` with an
error `e`, `ListLogs` returns a nil result and an error that wraps `e`, with the
message `failed to list logs: ` followed by the message of `e`. -/
theorem transport_failure_wrapped (env : Env) (c : AuditTrailClient) (rc : resty.Client)
    (action : String) (details : Option (List (String × JSON))) (params : List (String × String))
    (w : resty.World) (h0 : c.baseURL ≠ "") (hc : c.client = some rc) :
    (∀ e, (((resty.R.SetHeader "X-Request-ID" (env.uuid w.uuids)).SetBody
        (createLogBody action details)).Post env.server rc "/api/logs/" (some [])
        json.unmarshalStringMap { w with uuids := w.uuids + 1 }).1 = .error e →
      ∃ ret wrapped, c.CreateLog env action details w = some ret ∧
        ret.result = none ∧ ret.err = some wrapped ∧ wrapped.Unwrap = some e ∧
        ∀ quote, wrapped.Error quote = "failed to create log: " ++ e.Error quote) ∧
    (∀ e, (((resty.R.SetHeader "X-Request-ID" (env.uuid w.uuids)).SetQueryParams params).Get
        env.server rc "/api/logs/list/" {} json.unmarshalLogListResponse
        { w with uuids := w.uuids + 1 }).1 = .error e →
      ∃ ret wrapped, c.ListLogs env params w = some ret ∧
        ret.result = none ∧ ret.err = some wrapped ∧ wrapped.Unwrap = some e ∧
        ∀ quote, wrapped.Error quote = "failed to list logs: " ++ e.Error quote) := by
  constructor
  · intro e hC
    unfold AuditTrailClient.CreateLog
    rw [if_neg h0]
    simp only [hc]
    split
    · rename_i err w2 heq
      rw [heq] at hC
      cases hC
      exact ⟨_, _, rfl, rfl, rfl, rfl, fun _ => rfl⟩
    · rename_i resp w2 heq
      rw [heq] at hC
      cases hC
  · intro e hL
    unfold AuditTrailClient.ListLogs
    rw [if_neg h0]
    simp only [hc]
    split
    · rename_i err w2 heq
      rw [heq] at hL
      cases hL
      exact ⟨_, _, rfl, rfl, rfl, rfl, fun _ => rfl⟩
    · rename_i resp w2 heq
      rw [heq] at hL
      cases hL

theorem transport_failure_wrapped_witness :
    exampleClient.baseURL ≠ "" ∧
    (∃ ret wrapped,
      exampleClient.CreateLog { uuid := numbered, server := postFails } "login" none {} =
        some ret ∧
      ret.result = none ∧ ret.err = some wrapped ∧
      wrapped.Unwrap = some (.new "connection reset") ∧
      ∀ quote, wrapped.Error quote =
        "failed to create log: " ++ (GoError.new "connection reset").Error quote) ∧
    (∃ ret wrapped,
      exampleClient.ListLogs
        { uuid := numbered, server := unreachable (.new "connection refused") }
        [("page", "1")] {} = some ret ∧
      ret.result = none ∧ ret.err = some wrapped ∧
      wrapped.Unwrap = some (.new "connection refused") ∧
      ∀ quote, wrapped.Error quote =
        "failed to list logs: " ++ (GoError.new "connection refused").Error quote) :=
  ⟨by decide,
    (transport_failure_wrapped { uuid := numbered, server := postFails }
      exampleClient exampleTransport "login" none [("page", "1")] {} (by decide) rfl).1
        (.new "connection reset") rfl,
    (transport_failure_wrapped
      { uuid := numbered, server := unreachable (.new "connection refused") }
      exampleClient exampleTransport "login" none [("page", "1")] {} (by decide) rfl).2
        (.new "connection refused") rfl⟩

/-! ### The request body -/

/-- C6. For every action, the empty one too, and every `details`, the body that
`CreateLog` builds maps `action` to the given action, maps `details` to the
given details exactly when they are not nil, and has no other key; on a client
that passes the guard and whose endpoint URL parses the call sends at least one
request, and each request of the call carries that body, so no check refuses an
empty action. -/
theorem CreateLog_body (env : Env) (c : AuditTrailClient) (rc : resty.Client) (action : String)
    (details : Option (List (String × JSON))) (w : resty.World)
    (h0 : c.baseURL ≠ "") (hc : c.client = some rc)
    (hurl : endpointParses rc.BaseURL "/api/logs/" = true) :
    (∃ members, createLogBody action details = .object members ∧
      members.map Prod.fst = "action" :: (if details.isSome then ["details"] else []) ∧
      http.mapGet members "action" = some (.string action) ∧
      http.mapGet members "details" = details.map JSON.object ∧
      ∀ k, k ≠ "action" → k ≠ "details" → http.mapGet members k = none) ∧
    ∃ m ret q, 1 ≤ m ∧ c.CreateLog env action details w = some ret ∧
      ret.world.sent = w.sent ++ List.replicate m q ∧
      q.Method = "POST" ∧ q.Body = some (createLogBody action details) := by
  constructor
  · cases details with
    | none =>
      refine ⟨_, rfl, rfl, ?_, ?_, ?_⟩
      · simp [http.mapGet]
      · simp only [http.mapGet]
        rw [if_neg (by decide)]
        rfl
      · intro k hk _
        simp only [http.mapGet]
        rw [if_neg (fun h => hk h.symm)]
    | some d =>
      refine ⟨[("action", .string action), ("details", .object d)], ?_, rfl, ?_, ?_, ?_⟩
      · simp only [createLogBody, http.mapSet]
        rw [if_neg (by decide)]
      · simp [http.mapGet]
      · simp only [http.mapGet]
        rw [if_neg (by decide)]
        simp
      · intro k hk hk2
        simp only [http.mapGet]
        rw [if_neg (fun h => hk h.symm), if_neg (fun h => hk2 h.symm)]
  · obtain ⟨m, _, h1, h3⟩ := returnOf_Backoff_world "failed to create log: " id env.server rc
      (createLogRequest (env.uuid w.uuids) action details) (some []) json.unmarshalStringMap
      { uuids := w.uuids + 1, sent := w.sent }
    exact ⟨m, _, _, h1 (endpointParses_ok _ _ hurl),
      CreateLog_unfold env c rc action details w h0 hc, by rw [h3], rfl, rfl⟩

theorem CreateLog_body_witness :
    exampleClient.baseURL ≠ "" ∧ endpointParses exampleTransport.BaseURL "/api/logs/" = true ∧
    (∃ members, createLogBody "" none = .object members ∧
      members.map Prod.fst =
        "action" :: (if (none : Option (List (String × JSON))).isSome then ["details"] else []) ∧
      http.mapGet members "action" = some (.string "") ∧
      http.mapGet members "details" = (none : Option (List (String × JSON))).map JSON.object ∧
      ∀ k, k ≠ "action" → k ≠ "details" → http.mapGet members k = none) ∧
    ∃ m ret q, 1 ≤ m ∧
      exampleClient.CreateLog
        { uuid := numbered, server := answering { StatusCode := 200, Kind := .json,
                                                  Body := .ok (.object []) } }
        "" none {} = some ret ∧
      ret.world.sent = ({} : resty.World).sent ++ List.replicate m q ∧
      q.Method = "POST" ∧ q.Body = some (createLogBody "" none) :=
  ⟨by decide, by rfl,
    CreateLog_body
      { uuid := numbered, server := answering { StatusCode := 200, Kind := .json,
                                                Body := .ok (.object []) } }
      exampleClient exampleTransport "" none {} (by decide) rfl (by rfl)⟩

/-! ### Result or error -/

theorem returnOf_error_nil_result {σ ρ : Type} (pfx : String) (value : σ → Option ρ)
    (out : resty.Attempt σ × resty.World) :
    ((returnOf pfx value out).err ≠ none → (returnOf pfx value out).result = none) ∧
    ((returnOf pfx value out).err = none → ∃ resp, (returnOf pfx value out).result = value resp) := by
  obtain ⟨a, w⟩ := out
  cases a
  · exact ⟨fun h => absurd rfl h, fun _ => ⟨_, rfl⟩⟩
  · exact ⟨fun _ => rfl, fun h => by cases h⟩
  · exact ⟨fun _ => rfl, fun h => by cases h⟩

/-- A call of `CreateLog` that returns an error returns a nil result. -/
theorem CreateLog_one_outcome (env : Env) (c : AuditTrailClient) (action : String)
    (details : Option (List (String × JSON))) (w : resty.World)
    (ret : Return (List (String × String)))
    (h : c.CreateLog env action details w = some ret) :
    ret.err ≠ none → ret.result = none := by
  by_cases h0 : c.baseURL = ""
  · rw [(empty_baseURL_guard_aux env c action details w h0)] at h
    cases h
    exact fun _ => rfl
  · cases hc : c.client with
    | none => simp [AuditTrailClient.CreateLog, h0, hc] at h
    | some rc =>
      rw [CreateLog_unfold env c rc action details w h0 hc] at h
      cases h
      exact (returnOf_error_nil_result _ _ _).1

/-- A call of `ListLogs` that returns gives a non-nil result or a non-nil error, never
both and never neither. -/
theorem ListLogs_one_outcome (env : Env) (c : AuditTrailClient) (params : List (String × String))
    (w : resty.World) (ret : Return LogListResponse)
    (h : c.ListLogs env params w = some ret) :
    ret.result.isSome = true ↔ ret.err = none := by
  by_cases h0 : c.baseURL = ""
  · rw [(empty_baseURL_guard_list env c params w h0)] at h
    cases h
    simp
  · cases hc : c.client with
    | none => simp [AuditTrailClient.ListLogs, h0, hc] at h
    | some rc =>
      rw [ListLogs_unfold env c rc params w h0 hc] at h
      cases h
      generalize resty.Backoff _ _ _ = out
      obtain ⟨a, w2⟩ := out
      cases a <;> simp [returnOf]

/-- What `parseResponseBody` makes of a response whose status is not a success: the
target keeps its zero value and there is no error. -/
theorem parseResponseBody_not_success {ρ : Type} (raw : resty.RawResponse) (zero : ρ)
    (unmarshal : ρ → JSON → Except GoError ρ) (h : resty.IsSuccess raw.StatusCode = false) :
    resty.parseResponseBody raw zero unmarshal =
      .done { StatusCode := raw.StatusCode, Result := zero } := by
  have h204 : raw.StatusCode ≠ 204 := by
    intro h2
    rw [h2] at h
    revert h
    decide
  simp [resty.parseResponseBody, h204, h]

/-- What `parseResponseBody` makes of a JSON response of success status, other than
204, whose body is not JSON text or does not decode into the target: the error
of the decoder. -/
theorem parseResponseBody_undecodable {ρ : Type} (raw : resty.RawResponse) (zero : ρ)
    (unmarshal : ρ → JSON → Except GoError ρ) (e : GoError)
    (h204 : raw.StatusCode ≠ 204) (hk : raw.Kind = .json)
    (hs : resty.IsSuccess raw.StatusCode = true)
    (hbody : raw.Body = .error e ∨ ∃ j, raw.Body = .ok j ∧ unmarshal zero j = .error e) :
    resty.parseResponseBody raw zero unmarshal = .noRetry e := by
  rcases hbody with hb | ⟨j, hb, hu⟩
  · simp [resty.parseResponseBody, h204, hk, hs, hb]
  · simp [resty.parseResponseBody, h204, hk, hs, hb, hu]

/-- C5, as amended. A call of `CreateLog` or `ListLogs` that returns a non-nil error
returns a nil result, and a call of `ListLogs` that returns a nil error returns a
non-nil result. When the exchange ends with a JSON response of success status
whose body fails to decode, the call returns a nil result and the error of the
decoder, wrapped. When the exchange ends with a response whose status is not a
success, the call returns a nil error and the empty result: the empty mapping
for `CreateLog`, the zero `LogListResponse` for `ListLogs`. -/
theorem outcome_of_a_response (env : Env) (c : AuditTrailClient) (rc : resty.Client)
    (action : String) (details : Option (List (String × JSON))) (params : List (String × String))
    (w : resty.World) (raw : resty.RawResponse) (j : Nat)
    (h0 : c.baseURL ≠ "") (hc : c.client = some rc)
    (hurl : endpointParses rc.BaseURL "/api/logs/" = true) (hurl2 : endpointParses rc.BaseURL "/api/logs/list/" = true)
    (hj : j ≤ rc.RetryCount)
    (hfail : ∀ i, i < j → ∀ q, ∃ e, env.server (w.sent.length + i) q = .failure e)
    (hresp : ∀ q, env.server (w.sent.length + j) q = .response raw) :
    (∀ (env2 : Env) (c2 : AuditTrailClient) (a : String) (d : Option (List (String × JSON)))
        (p : List (String × String)) (w2 : resty.World),
      (∀ ret, c2.CreateLog env2 a d w2 = some ret → (ret.err ≠ none → ret.result = none)) ∧
      (∀ ret, c2.ListLogs env2 p w2 = some ret → (ret.result.isSome = true ↔ ret.err = none))) ∧
    (∃ ret, c.CreateLog env action details w = some ret ∧
      (resty.IsSuccess raw.StatusCode = false → ret.result = some [] ∧ ret.err = none) ∧
      (∀ e, raw.StatusCode ≠ 204 → raw.Kind = .json → resty.IsSuccess raw.StatusCode = true →
        (raw.Body = .error e ∨ ∃ b, raw.Body = .ok b ∧ json.unmarshalStringMap (some []) b = .error e) →
        ret.result = none ∧ ret.err = some (.errorf "failed to create log: " e))) ∧
    (∃ ret, c.ListLogs env params w = some ret ∧
      (resty.IsSuccess raw.StatusCode = false → ret.result = some {} ∧ ret.err = none) ∧
      (∀ e, raw.StatusCode ≠ 204 → raw.Kind = .json → resty.IsSuccess raw.StatusCode = true →
        (raw.Body = .error e ∨
          ∃ b, raw.Body = .ok b ∧ json.unmarshalLogListResponse {} b = .error e) →
        ret.result = none ∧ ret.err = some (.errorf "failed to list logs: " e))) := by
  refine ⟨fun env2 c2 a d p w2 =>
      ⟨fun ret h => CreateLog_one_outcome env2 c2 a d w2 ret h,
        fun ret h => ListLogs_one_outcome env2 c2 p w2 ret h⟩,
    ⟨_, CreateLog_answer env c rc action details w raw j h0 hc hurl hj hfail hresp, ?_, ?_⟩,
    ⟨_, ListLogs_answer env c rc params w raw j h0 hc hurl2 hj hfail hresp, ?_, ?_⟩⟩
  · intro hs
    rw [parseResponseBody_not_success raw _ _ hs]
    exact ⟨rfl, rfl⟩
  · intro e h204 hk hs hbody
    rw [parseResponseBody_undecodable raw _ _ e h204 hk hs hbody]
    exact ⟨rfl, rfl⟩
  · intro hs
    rw [parseResponseBody_not_success raw _ _ hs]
    exact ⟨rfl, rfl⟩
  · intro e h204 hk hs hbody
    rw [parseResponseBody_undecodable raw _ _ e h204 hk hs hbody]
    exact ⟨rfl, rfl⟩

theorem outcome_of_a_response_witness :
    exampleClient.baseURL ≠ "" ∧ endpointParses exampleTransport.BaseURL "/api/logs/" = true ∧
    endpointParses exampleTransport.BaseURL "/api/logs/list/" = true ∧
    (∀ (env2 : Env) (c2 : AuditTrailClient) (a : String) (d : Option (List (String × JSON)))
        (p : List (String × String)) (w2 : resty.World),
      (∀ ret, c2.CreateLog env2 a d w2 = some ret → (ret.err ≠ none → ret.result = none)) ∧
      (∀ ret, c2.ListLogs env2 p w2 = some ret → (ret.result.isSome = true ↔ ret.err = none))) ∧
    (∃ ret, exampleClient.CreateLog { uuid := numbered, server := answering serverError }
        "login" none {} = some ret ∧
      (resty.IsSuccess serverError.StatusCode = false → ret.result = some [] ∧ ret.err = none) ∧
      (∀ e, serverError.StatusCode ≠ 204 → serverError.Kind = .json →
        resty.IsSuccess serverError.StatusCode = true →
        (serverError.Body = .error e ∨
          ∃ b, serverError.Body = .ok b ∧ json.unmarshalStringMap (some []) b = .error e) →
        ret.result = none ∧ ret.err = some (.errorf "failed to create log: " e))) ∧
    (∃ ret, exampleClient.ListLogs { uuid := numbered, server := answering serverError }
        [("page", "1")] {} = some ret ∧
      (resty.IsSuccess serverError.StatusCode = false → ret.result = some {} ∧ ret.err = none) ∧
      (∀ e, serverError.StatusCode ≠ 204 → serverError.Kind = .json →
        resty.IsSuccess serverError.StatusCode = true →
        (serverError.Body = .error e ∨
          ∃ b, serverError.Body = .ok b ∧ json.unmarshalLogListResponse {} b = .error e) →
        ret.result = none ∧ ret.err = some (.errorf "failed to list logs: " e))) :=
  ⟨by decide, by rfl, by rfl,
    outcome_of_a_response { uuid := numbered, server := answering serverError } exampleClient
      exampleTransport "login" none [("page", "1")] {} serverError 0 (by decide) rfl
      (by rfl) (by rfl) (by decide) (fun i hi => absurd hi (Nat.not_lt_zero i)) (fun _ => rfl)⟩

/-- C5, as the claim has it, fails. When the remote side answers with status 500, the
client built for `https://api.example.com` returns from `CreateLog` the empty
mapping with a nil error, and from `ListLogs` the zero `LogListResponse` with a
nil error, each after one request. -/
theorem server_error_gives_nil_error :
    resty.IsSuccess serverError.StatusCode = false ∧
    (((NewAuditTrailClient "https://api.example.com" "your-jwt-token-here").1.bind fun c =>
        c.CreateLog { uuid := numbered, server := answering serverError } "login" none {}).map
      fun ret => (ret.result, ret.err, ret.world.sent.length)) = some (some [], none, 1) ∧
    (((NewAuditTrailClient "https://api.example.com" "your-jwt-token-here").1.bind fun c =>
        c.ListLogs { uuid := numbered, server := answering serverError } [("page", "1")] {}).map
      fun ret => (ret.result, ret.err, ret.world.sent.length)) = some (some {}, none, 1) := by
  refine ⟨by decide, ?_, ?_⟩
  · rw [exampleClient_constructed]
    rfl
  · rw [exampleClient_constructed]
    rfl

/-! ### Decoding a page -/

theorem mapSet_of_not_mem {α : Type} (m : List (String × α)) (k : String) (v : α)
    (h : k ∉ m.map Prod.fst) : http.mapSet m k v = m ++ [(k, v)] := by
  induction m with
  | nil => rfl
  | cons a m ih =>
    obtain ⟨k1, v1⟩ := a
    simp only [List.map_cons, List.mem_cons, not_or] at h
    simp only [http.mapSet, List.cons_append]
    rw [if_neg (fun h1 => h.1 h1.symm), ih h.2]

mutual
/-- The generic decoder returns a Go value as it is. -/
theorem valueInterface_goValue (ctx : json.errorContext) :
    ∀ (j : JSON), isGoValue j = true → json.valueInterface ctx j = .ok j
  | .null, _ => by simp [json.valueInterface]
  | .bool _, _ => by simp [json.valueInterface]
  | .string _, _ => by simp [json.valueInterface]
  | .number n, h => by
    simp only [isGoValue] at h
    simp [json.valueInterface, h]
  | .array elems, h => by
    simp only [isGoValue] at h
    simp [json.valueInterface, arrayInterface_goValue ctx elems h]
  | .object members, h => by
    simp only [isGoValue, Bool.and_eq_true, decide_eq_true_eq] at h
    simp [json.valueInterface, objectInterface_goValue ctx members [] h.2 h.1 (by simp)]
theorem arrayInterface_goValue (ctx : json.errorContext) :
    ∀ (l : List JSON), allGoValues l = true → json.arrayInterface ctx l = .ok l
  | [], _ => by simp [json.arrayInterface]
  | j :: js, h => by
    simp only [allGoValues, Bool.and_eq_true] at h
    simp [json.arrayInterface, valueInterface_goValue ctx j h.1, arrayInterface_goValue ctx js h.2]
theorem objectInterface_goValue (ctx : json.errorContext) :
    ∀ (ms : List (String × JSON)) (acc : List (String × JSON)), memberGoValues ms = true →
      (ms.map Prod.fst).Nodup → (∀ k ∈ ms.map Prod.fst, k ∉ acc.map Prod.fst) →
      json.objectInterface ctx acc ms = .ok (acc ++ ms)
  | [], acc, _, _, _ => by simp [json.objectInterface]
  | (k, j) :: ms, acc, h, hnd, hdis => by
    simp only [memberGoValues, Bool.and_eq_true] at h
    simp only [List.map_cons, List.nodup_cons] at hnd
    simp only [json.objectInterface, valueInterface_goValue ctx j h.1]
    rw [mapSet_of_not_mem acc k j (hdis k (by simp)),
      objectInterface_goValue ctx ms (acc ++ [(k, j)]) h.2 hnd.2]
    · simp
    · intro k1 hk1
      simp only [List.map_append, List.map_cons, List.map_nil, List.mem_append, List.mem_singleton,
        not_or]
      exact ⟨hdis k1 (by simp [hk1]), fun h1 => hnd.1 (h1 ▸ hk1)⟩
end

theorem findField_id : json.findField json.logEntryFields "_id" = some "_id" := by rfl

theorem findField_timestamp : json.findField json.logEntryFields "timestamp" = some "timestamp" := by
  rfl

theorem findField_action : json.findField json.logEntryFields "action" = some "action" := by rfl

theorem findField_user_id : json.findField json.logEntryFields "user_id" = some "user_id" := by rfl

theorem findField_details : json.findField json.logEntryFields "details" = some "details" := by rfl

theorem findField_signature : json.findField json.logEntryFields "signature" = some "signature" := by
  rfl

theorem findField_count : json.findField json.logListResponseFields "count" = some "count" := by rfl

theorem findField_next : json.findField json.logListResponseFields "next" = some "next" := by rfl

theorem findField_previous :
    json.findField json.logListResponseFields "previous" = some "previous" := by rfl

theorem findField_results : json.findField json.logListResponseFields "results" = some "results" := by
  rfl

theorem decodeAnyMap_details (ctx : json.errorContext) (e : LogEntry)
    (h : e.wellFormed = true) :
    json.decodeAnyMap ctx none
        (match e.Details with
         | none => .null
         | some d => .object d) = .ok e.Details := by
  cases hd : e.Details with
  | none => rfl
  | some d =>
    simp only [LogEntry.wellFormed, hd, Bool.and_eq_true, decide_eq_true_eq] at h
    simp [json.decodeAnyMap, objectInterface_goValue ctx d [] h.2 h.1 (by simp)]

/-- A well-formed entry, sent in the shape of section 6, decodes to itself. -/
theorem decodeLogEntry_logEntryJSON (e : LogEntry) (h : e.wellFormed = true) :
    json.decodeLogEntry {} (logEntryJSON e) = .ok e := by
  simp only [logEntryJSON, json.decodeLogEntry, json.objectLogEntry, findField_id,
    findField_timestamp, findField_action, findField_user_id, findField_details,
    findField_signature]
  simp [json.setLogEntryField, json.decodeString, decodeAnyMap_details _ e h]

theorem arrayLogEntries_logEntryJSON (results : List LogEntry)
    (h : ∀ e ∈ results, e.wellFormed = true) :
    json.arrayLogEntries [] (results.map logEntryJSON) = .ok results := by
  induction results with
  | nil => rfl
  | cons e es ih =>
    simp only [List.map_cons, json.arrayLogEntries, List.head?_nil, Option.getD_none,
      List.tail_nil]
    rw [decodeLogEntry_logEntryJSON e (h e (by simp)), ih (fun e1 h1 => h e1 (by simp [h1]))]

theorem decodeStringPtr_optionalString (ctx : json.errorContext) (v : Option String) :
    json.decodeStringPtr ctx (optionalString v) = .ok v := by
  cases v <;> rfl

/-- A page of well-formed entries with a count that fits an `int`, sent in the shape
of section 6, decodes to those values in the same order. -/
theorem unmarshalLogListResponse_logListJSON (count : Int) (next previous : Option String)
    (results : List LogEntry) (hcount : -(2 ^ 63) ≤ count ∧ count < 2 ^ 63)
    (h : ∀ e ∈ results, e.wellFormed = true) :
    json.unmarshalLogListResponse {} (logListJSON count next previous results) =
      .ok { Count := count, Next := next, Previous := previous, Results := results } := by
  simp only [logListJSON, json.unmarshalLogListResponse, json.objectLogListResponse,
    findField_count, findField_next, findField_previous, findField_results]
  have hc2 : -9223372036854775808 ≤ count ∧ count < 9223372036854775808 := by
    norm_num at hcount
    exact hcount
  simp [json.setLogListResponseField, json.decodeInt, hc2, decodeStringPtr_optionalString,
    json.decodeLogEntries, arrayLogEntries_logEntryJSON results h]

/-- C8, as amended. When the exchange of `ListLogs` ends with a response of success
status other than 204 and of JSON content type whose body is the object
`{count, next, previous, results}` of a page, the count fitting an `int` and the
details of the entries being Go values, the call returns a nil error and a
`LogListResponse` with that count, with `Next` and `Previous` as received (nil
for `null`), and with the entries received, as many and in the same order. The
requests of the call are the attempts of the one GET of the list path: nothing
is sent to follow `next` or `previous`. -/
theorem ListLogs_page (env : Env) (c : AuditTrailClient) (rc : resty.Client)
    (params : List (String × String)) (w : resty.World) (status : Nat) (count : Int)
    (next previous : Option String) (results : List LogEntry) (j : Nat)
    (h0 : c.baseURL ≠ "") (hc : c.client = some rc)
    (hurl : endpointParses rc.BaseURL "/api/logs/list/" = true) (hj : j ≤ rc.RetryCount)
    (hfail : ∀ i, i < j → ∀ q, ∃ e, env.server (w.sent.length + i) q = .failure e)
    (hresp : ∀ q, env.server (w.sent.length + j) q =
      .response { StatusCode := status, Kind := .json,
                  Body := .ok (logListJSON count next previous results) })
    (hs : resty.IsSuccess status = true) (h204 : status ≠ 204)
    (hcount : -(2 ^ 63) ≤ count ∧ count < 2 ^ 63)
    (hwf : ∀ e ∈ results, e.wellFormed = true) :
    ∃ ret page, c.ListLogs env params w = some ret ∧
      ret.err = none ∧ ret.result = some page ∧
      page.Count = count ∧ page.Next = next ∧ page.Previous = previous ∧
      page.Results = results ∧ page.Results.length = results.length ∧
      ret.world.sent = w.sent ++ List.replicate (j + 1)
        (resty.wireRequest rc (listLogsRequest (env.uuid w.uuids) params)) ∧
      (resty.wireRequest rc (listLogsRequest (env.uuid w.uuids) params)).Method = "GET" ∧
      (resty.wireRequest rc (listLogsRequest (env.uuid w.uuids) params)).Path =
        "/api/logs/list/" := by
  have hdec := unmarshalLogListResponse_logListJSON count next previous results hcount hwf
  refine ⟨_, { Count := count, Next := next, Previous := previous, Results := results },
    ListLogs_answer env c rc params w _ j h0 hc hurl hj hfail hresp, ?_, ?_, rfl, rfl, rfl, rfl,
    rfl,
    ?_, rfl, rfl⟩
  · simp [returnOf, resty.parseResponseBody, h204, hs, hdec]
  · simp [returnOf, resty.parseResponseBody, h204, hs, hdec]
  · simp [returnOf, resty.parseResponseBody, h204, hs, hdec]

/-- C8, as the claim has it, fails. The client built for `https://api.example.com`
gets a response of status 200 whose body is the page `{count: 2, next: null,
previous: null, results: [two entries]}`. Under a content type that is not JSON
the body is not decoded: `ListLogs` returns the zero `LogListResponse`, count 0
and no entry, with a nil error. Under a JSON content type, a count of `2^63`,
which does not fit an `int`, or a number in the details beyond the range of
`float64`, makes `ListLogs` return a nil result and an error. -/
theorem page_not_always_decoded :
    (((NewAuditTrailClient "https://api.example.com" "your-jwt-token-here").1.bind fun c =>
        c.ListLogs
          { uuid := numbered,
            server := answering { StatusCode := 200, Kind := .other,
                                  Body := .ok (logListJSON 2 none none exampleEntries) } }
          [("page", "1"), ("page_size", "20")] {}).map
      fun ret => (ret.result, ret.err, ret.world.sent.length)) =
        some (some { Count := 0, Next := none, Previous := none, Results := [] }, none, 1) ∧
    (((NewAuditTrailClient "https://api.example.com" "your-jwt-token-here").1.bind fun c =>
        c.ListLogs
          { uuid := numbered,
            server := answering { StatusCode := 200, Kind := .json,
                                  Body := .ok (logListJSON (2 ^ 63) none none exampleEntries) } }
          [("page", "1"), ("page_size", "20")] {}).map
      fun ret => (ret.result.isNone, ret.err.isSome, ret.world.sent.length)) =
        some (true, true, 1) ∧
    (((NewAuditTrailClient "https://api.example.com" "your-jwt-token-here").1.bind fun c =>
        c.ListLogs
          { uuid := numbered,
            server := answering { StatusCode := 200, Kind := .json,
                                  Body := .ok (logListJSON 1 none none
                                    [{ ID := "665f1c",
                                       Details := some [("load", .number (.float "1e999" false))] }]) } }
          [("page", "1"), ("page_size", "20")] {}).map
      fun ret => (ret.result.isNone, ret.err.isSome, ret.world.sent.length)) =
        some (true, true, 1) := by
  refine ⟨?_, ?_, ?_⟩
  · rw [exampleClient_constructed]
    rfl
  · rw [exampleClient_constructed]
    rfl
  · rw [exampleClient_constructed]
    rfl

theorem two_pow_double_le (a b : Nat) (h : a < b) : 2 ^ a + 2 ^ a ≤ 2 ^ b := by
  have h1 : 2 ^ a + 2 ^ a = 2 ^ (a + 1) := by
    rw [pow_succ]
    omega
  rw [h1]
  exact Nat.pow_le_pow_right (by decide) h

/-- An integer below `2^970` in absolute value is in the range of `float64`. -/
theorem fitsFloat64_int (n : Int) (h : n.natAbs < 2 ^ 970) :
    json.JSONNumber.fitsFloat64 (.int n) = true := by
  unfold json.JSONNumber.fitsFloat64
  exact decide_eq_true
    (Nat.lt_of_lt_of_le h (Nat.le_sub_of_add_le (two_pow_double_le 970 1024 (by decide))))

theorem one_lt_two_pow_of_pos (k : Nat) (hk : k ≠ 0) : (1 : Int).natAbs < 2 ^ k :=
  Nat.one_lt_two_pow hk

theorem one_fitsFloat64 : json.JSONNumber.fitsFloat64 (.int 1) = true :=
  fitsFloat64_int 1 (one_lt_two_pow_of_pos 970 (by decide))

theorem exampleEntries_wellFormed : ∀ e ∈ exampleEntries, e.wellFormed = true := by
  intro e he
  simp only [exampleEntries, List.mem_cons, List.mem_singleton, List.not_mem_nil, or_false] at he
  rcases he with rfl | rfl
  · simp only [LogEntry.wellFormed, memberGoValues, isGoValue, Bool.and_true, Bool.true_and,
      Bool.and_eq_true, decide_eq_true_eq]
    exact ⟨by decide, one_fitsFloat64⟩
  · rfl

theorem ListLogs_page_witness :
    exampleClient.baseURL ≠ "" ∧ endpointParses exampleTransport.BaseURL "/api/logs/list/" = true ∧
    ∃ ret page,
      exampleClient.ListLogs
        { uuid := numbered,
          server := answering { StatusCode := 200, Kind := .json,
                                Body := .ok (logListJSON 2 none none exampleEntries) } }
        [("page", "1"), ("page_size", "20")] {} = some ret ∧
      ret.err = none ∧ ret.result = some page ∧
      page.Count = 2 ∧ page.Next = none ∧ page.Previous = none ∧
      page.Results = exampleEntries ∧ page.Results.length = exampleEntries.length ∧
      ret.world.sent = ({} : resty.World).sent ++ List.replicate (0 + 1)
        (resty.wireRequest exampleTransport
          (listLogsRequest (numbered 0) [("page", "1"), ("page_size", "20")])) ∧
      (resty.wireRequest exampleTransport
          (listLogsRequest (numbered 0) [("page", "1"), ("page_size", "20")])).Method = "GET" ∧
      (resty.wireRequest exampleTransport
          (listLogsRequest (numbered 0) [("page", "1"), ("page_size", "20")])).Path =
        "/api/logs/list/" :=
  ⟨by decide, by rfl,
    ListLogs_page
      { uuid := numbered,
        server := answering { StatusCode := 200, Kind := .json,
                              Body := .ok (logListJSON 2 none none exampleEntries) } }
      exampleClient exampleTransport [("page", "1"), ("page_size", "20")] {} 200 2 none none
      exampleEntries 0 (by decide) rfl (by rfl) (by decide)
      (fun i hi => absurd hi (Nat.not_lt_zero i))
      (fun _ => rfl) (by decide) (by decide) (by decide) exampleEntries_wellFormed⟩

/-! ### Remarks on the hypotheses -/

/-- Why the theorems on attempts ask that the endpoint URL parses. The constructor
accepts `http://h/?a#%zz`, since `url.ParseRequestURI` does not read a fragment
and does not check a query; the transport then parses the URL of the request
with `url.Parse`, which refuses the escape `%zz` in the fragment, and `CreateLog`
returns an error without a single request. -/
theorem endpoint_may_not_parse :
    (NewAuditTrailClient "http://h/?a#%zz" "t").2 = none ∧
    endpointParses (resty.trimRightSlash "http://h/?a#%zz") "/api/logs/" = false ∧
    (((NewAuditTrailClient "http://h/?a#%zz" "t").1.bind fun c =>
        c.CreateLog { uuid := numbered, server := unreachable (.new "connection refused") }
          "login" none {}).map fun ret =>
        (ret.result, ret.err.isSome, ret.world.sent.length)) = some (none, true, 0) := by
  refine ⟨by rfl, by rfl, ?_⟩
  rw [NewAuditTrailClient_parsable "http://h/?a#%zz" "t"
    { Scheme := "http", Host := "h", Path := "/", RawQuery := "a#%zz" } (by decide) (by rfl)]
  rfl

/-- Why `CreateLog` may return a nil mapping with a nil error: a JSON response of
success status whose body is `null` makes the result target the nil map. -/
theorem CreateLog_null_body :
    (exampleClient.CreateLog
        { uuid := numbered,
          server := answering { StatusCode := 200, Kind := .json, Body := .ok .null } }
        "login" none {}).map (fun ret => (ret.result, ret.err, ret.world.sent.length)) =
      some (none, none, 1) := by
  rfl

/-- The base URL `/foo` makes the transport parse the text `/foo/api/logs/` for the
endpoint of `CreateLog`, which names no host. -/
theorem bare_path_endpoint (token : String) (action : String)
    (details : Option (List (String × JSON))) (requestID : String) :
    ((NewAuditTrailClient "/foo" token).1.bind fun c => c.client).map (fun rc =>
      resty.requestURLText rc (createLogRequest requestID action details)) =
      some "/foo/api/logs/" := by
  rw [NewAuditTrailClient_parsable "/foo" token { Path := "/foo" } (by decide) (by rfl)]
  rfl

end audittrail
